import Mathlib

/-!
Verification of the Release reconciliation adapter
(`controllers/release/release_adapter.go` of the release-service repository).

The adapter is shallowly embedded: each Go method of `Adapter` becomes a Lean
function taking an explicit `Client` (the resource-store collaborator, given as
a record of call responses) and the in-memory `Release` object, and returning an
`OpOutcome`: the chain-control result, the in-memory `Release` after the pass,
and the list of store mutations that succeeded during the pass.  Go errors are
modelled by `KError` (distinguishing the API not-found outcome from other
failures, as `errors.IsNotFound` does), and fallible calls return `Except`.

Helpers that live in this repository but outside the file under analysis
(the `v1alpha1` Release condition helpers, the `tekton` and `gitops` builders,
label constants) are modelled from the specification and marked as such.
-/

namespace ReleaseSvc

/-! ### String helpers

Go's `strings.Contains` and `strings.Split` (with a single-character
separator) are modelled on `List Char`, so their algebra can be proved by
structural induction. -/

/-- `startsWithChars pat l`: `pat` is an initial run of `l`
(the matching core of Go's `strings.Contains`). -/
def startsWithChars : List Char → List Char → Bool
  | [], _ => true
  | _ :: _, [] => false
  | p :: ps, c :: cs => p = c && startsWithChars ps cs

/-- `hasSubChars pat l`: `pat` occurs contiguously inside `l`. -/
def hasSubChars (pat : List Char) : List Char → Bool
  | [] => startsWithChars pat []
  | c :: cs => startsWithChars pat (c :: cs) || hasSubChars pat cs

/-- Model of Go `strings.Contains s sub`. -/
def strContains (s sub : String) : Bool :=
  hasSubChars sub.data s.data

/-- Model of Go `strings.Split s (string sep)` restricted to a one-character
separator: split a character list at every occurrence of `sep`. -/
def goSplitChars (sep : Char) : List Char → List (List Char)
  | [] => [[]]
  | c :: cs =>
    if c = sep then [] :: goSplitChars sep cs
    else
      match goSplitChars sep cs with
      | [] => [[c]]
      | h :: t => (c :: h) :: t

/-- Inverse of `goSplitChars`: interleave the separator back between parts. -/
def joinSepChars (sep : Char) : List (List Char) → List Char
  | [] => []
  | [l] => l
  | l :: ls => l ++ sep :: joinSepChars sep ls

/-- Model of Go `strings.Split` on `String`s (single-character separator). -/
def goSplit (s : String) (sep : Char) : List String :=
  (goSplitChars sep s.data).map String.mk

/-! ### Errors and chain control -/

/-- Store-call errors.  `notFound` is the distinguished API not-found outcome
recognised by `errors.IsNotFound`; `custom` is a `fmt.Errorf` error built by
the adapter itself; `transient` is any other transport-level failure. -/
inductive KError
  | notFound (msg : String)
  | custom (msg : String)
  | transient (msg : String)
deriving DecidableEq

/-- Model of `k8s.io/apimachinery` `errors.IsNotFound`. -/
def KError.isNotFound : KError → Bool
  | .notFound _ => true
  | _ => false

/-- Model of Go `err.Error()`. -/
def KError.errString : KError → String
  | .notFound m => m
  | .custom m => m
  | .transient m => m

/-- The `operator-goodies` `reconciler.OperationResult` as consumed by the
driver: continue the chain, stop it, requeue, or requeue carrying an error. -/
inductive OperationResult
  | continueProcessing
  | stopProcessing
  | requeue
  | requeueWithError (e : KError)
deriving DecidableEq

/-! ### Data model (resource objects read or written by the adapter) -/

/-- `v1alpha1.ReleasePlan` (fields used: namespace, name, `spec.target`,
`spec.application`). -/
structure ReleasePlan where
  ns : String
  name : String
  target : String
  application : String
deriving DecidableEq

/-- `v1alpha1.ReleasePlanAdmission` (fields used: namespace, name, labels,
`spec.origin`, `spec.application`, `spec.environment`,
`spec.releaseStrategy`). -/
structure ReleasePlanAdmission where
  ns : String
  name : String
  labels : List (String × String)
  origin : String
  application : String
  environment : String
  releaseStrategy : String
deriving DecidableEq

/-- `v1alpha1.ReleaseStrategy` (fields used: namespace, name, `spec.policy`). -/
structure ReleaseStrategy where
  ns : String
  name : String
  policy : String
deriving DecidableEq

/-- `EnterpriseContractPolicy` (opaque; only its identity is used). -/
structure EnterpriseContractPolicy where
  ns : String
  name : String
deriving DecidableEq

/-- `Snapshot` (fields used: namespace, name, `spec.application`). -/
structure Snapshot where
  ns : String
  name : String
  application : String
deriving DecidableEq

/-- `Environment` (only its identity is used). -/
structure Environment where
  ns : String
  name : String
deriving DecidableEq

/-- `Application` (only its identity is used). -/
structure Application where
  ns : String
  name : String
deriving DecidableEq

/-- `Component` (fields used: namespace, name, `spec.application`). -/
structure Component where
  ns : String
  name : String
  application : String
deriving DecidableEq

/-- Three-valued Kubernetes condition status. -/
inductive CondStatus
  | ctrue
  | cfalse
  | cunknown
deriving DecidableEq

/-- A status condition (status/reason/message triple). -/
structure Condition where
  status : CondStatus
  reason : String
  message : String
deriving DecidableEq

/-- Tekton `v1beta1.PipelineRun` (fields used: namespace, name, labels, and the
`Succeeded` condition that `IsDone` and the status tracker inspect). -/
structure PipelineRun where
  ns : String
  name : String
  labels : List (String × String)
  succeededCondition : Option Condition
deriving DecidableEq

/-- Tekton `pr.IsDone()`: the `Succeeded` condition exists and is no longer
unknown. -/
def PipelineRun.isDone (p : PipelineRun) : Bool :=
  match p.succeededCondition with
  | some c => c.status ≠ CondStatus.cunknown
  | none => false

/-- `SnapshotEnvironmentBinding` (fields used: namespace, name,
`spec.environment`, `spec.application`, and the `AllComponentsDeployed`
condition inspected by the deployment tracker). -/
structure SnapshotEnvironmentBinding where
  ns : String
  name : String
  environment : String
  application : String
  allComponentsDeployed : Option Condition
deriving DecidableEq

/-! ### The Release object

The condition helpers (`HasStarted`, `IsDone`, `HasSucceeded`,
`HasBeenDeployed`, `MarkInvalid`, `MarkRunning`, `MarkSucceeded`,
`MarkFailed`, `MarkDeploying`, `MarkDeployed`) live in
`api/v1alpha1/release_types.go`, which is not part of the file under
analysis; they are modelled from the spec's Release state machine
(`NoExecution → Triggered → (Succeeded | Failed)` plus the deployment
conditions in spec sections 3 and 4.3–4.4). -/

/-- Reasons attached to Release conditions (`v1alpha1.ReleaseReason*`
constants; modelled as an enumeration). -/
inductive ReleaseReason
  | validationError
  | releasePlanValidationError
  | targetDisabledError
  | pipelineFailed
deriving DecidableEq

/-- Modelled from the spec: the Release's pipeline-phase condition state
(missing `release_types.go`; spec section 4.3 state machine, with `invalid`
for the terminal validation-error state of spec section 7). -/
inductive ReleaseState
  | pending
  | running
  | succeeded
  | failed (reason : ReleaseReason) (msg : String)
  | invalid (reason : ReleaseReason) (msg : String)
deriving DecidableEq

/-- Modelled from the spec: the Release's deployment condition state
(missing `release_types.go`; spec section 4.4: unknown/progressing,
deployed-true, deployed-false). -/
inductive DeployState
  | notStarted
  | deploying (reason msg : String)
  | deployed (status : CondStatus) (reason msg : String)
deriving DecidableEq

/-- `Release.Spec` (fields used: `releasePlan`, `snapshot`). -/
structure ReleaseSpec where
  releasePlan : String
  snapshot : String
deriving DecidableEq

/-- `Release.Status` as written by the adapter: the two serialized
namespaced-name references, the target namespace, and the completion time. -/
structure ReleaseStatus where
  releasePipelineRun : String
  releaseStrategy : String
  target : String
  snapshotEnvironmentBinding : String
  completionTime : Option Nat
deriving DecidableEq

/-- The `Release` under reconciliation: object metadata (name, namespace,
deletion timestamp, finalizer list), spec, status, and the modelled
condition states. -/
structure Release where
  name : String
  ns : String
  deletionTimestamp : Option Nat
  finalizers : List String
  spec : ReleaseSpec
  status : ReleaseStatus
  state : ReleaseState
  deploy : DeployState
deriving DecidableEq

/-- Modelled from the spec: `release.HasStarted()` — the pipeline phase has
left the initial state. -/
def Release.hasStarted (r : Release) : Bool :=
  r.state ≠ ReleaseState.pending

/-- Modelled from the spec: `release.IsDone()` — the pipeline phase is
terminal (succeeded, failed, or invalid). -/
def Release.isDone (r : Release) : Bool :=
  match r.state with
  | .succeeded => true
  | .failed _ _ => true
  | .invalid _ _ => true
  | _ => false

/-- Modelled from the spec: `release.HasSucceeded()`. -/
def Release.hasSucceeded (r : Release) : Bool :=
  r.state = ReleaseState.succeeded

/-- Modelled from the spec: `release.HasBeenDeployed()` — a terminal
deployment outcome (true or false) has been recorded. -/
def Release.hasBeenDeployed (r : Release) : Bool :=
  match r.deploy with
  | .deployed _ _ _ => true
  | _ => false

/-- Modelled from the spec: `release.MarkInvalid(reason, msg)`. -/
def markInvalid (r : Release) (reason : ReleaseReason) (msg : String) : Release :=
  { r with state := ReleaseState.invalid reason msg }

/-- Modelled from the spec: `release.MarkRunning()`. -/
def markRunning (r : Release) : Release :=
  { r with state := ReleaseState.running }

/-- Modelled from the spec: `release.MarkSucceeded()`. -/
def markSucceeded (r : Release) : Release :=
  { r with state := ReleaseState.succeeded }

/-- Modelled from the spec: `release.MarkFailed(reason, msg)`. -/
def markFailed (r : Release) (reason : ReleaseReason) (msg : String) : Release :=
  { r with state := ReleaseState.failed reason msg }

/-- Modelled from the spec: `release.MarkDeploying(reason, msg)`. -/
def markDeploying (r : Release) (reason msg : String) : Release :=
  { r with deploy := DeployState.deploying reason msg }

/-- Modelled from the spec: `release.MarkDeployed(status, reason, msg)`. -/
def markDeployed (r : Release) (status : CondStatus) (reason msg : String) : Release :=
  { r with deploy := DeployState.deployed status reason msg }

/-! ### Constants -/

/-- `finalizerName` constant of the adapter. -/
def finalizerName : String := "appstudio.redhat.com/release-finalizer"

/-- Modelled from the spec: `v1alpha1.AutoReleaseLabel` (declared in
`release_types.go`; the spec calls it the opt-out / auto-release label — its
concrete key is immaterial to the logic). -/
def autoReleaseLabel : String := "auto-release"

/-- Modelled from the spec: `tekton.ReleaseNameLabel` (spec section 6:
label `release-name` produced on the release execution). -/
def releaseNameLabel : String := "release-name"

/-- Modelled from the spec: `tekton.ReleaseNamespaceLabel` (spec section 6:
label `release-namespace` produced on the release execution). -/
def releaseNamespaceLabel : String := "release-namespace"

/-- `types.Separator` — the `/` joining namespace and name. -/
def sepChar : Char := '/'

/-- `types.Separator` as a string (for `fmt.Sprintf "%s%c%s"`). -/
def sepStr : String := "/"

/-- Error text of `getActiveReleasePlanAdmission` when two candidates match
(`fmt.Errorf("multiple ReleasePlanAdmissions found with the target (%+v) for
application '%s'", ...)`), written so its fixed head is syntactically a
leading block of the message. -/
def multipleAdmissionsMsg (target app : String) : String :=
  "multiple ReleasePlanAdmissions found" ++
    (" with the target (" ++ target ++ ") for application '" ++ app ++ "'")

/-- Error text of `getActiveReleasePlanAdmission` for an opted-out candidate
(`fmt.Errorf("found ReleasePlanAdmission '%s' with auto-release label set to
false", ...)`), written so its fixed tail is syntactically a trailing block. -/
def autoReleaseFalseMsg (name : String) : String :=
  ("found ReleasePlanAdmission '" ++ name ++ "' with ") ++
    "auto-release label set to false"

/-- Error text of `getActiveReleasePlanAdmission` when no candidate matches. -/
def noAdmissionMsg (target app : String) : String :=
  "no ReleasePlanAdmission found in the target (" ++ target ++
    ") for application '" ++ app ++ "'"

/-- Error text of `getSnapshotEnvironmentBindingFromReleaseStatus` for a
malformed stored namespaced name. -/
def invalidBindingRefMsg (s : String) : String :=
  "found invalid namespaced name of SnapshotEnvironmentBinding in" ++
    " release status: '" ++ s ++ "'"

/-- The marker substring `EnsureReleasePlanAdmissionEnabled` greps for in the
multiple-admissions case. -/
def multipleMarker : String := "multiple ReleasePlanAdmissions found"

/-- The marker substring `EnsureReleasePlanAdmissionEnabled` greps for in the
opted-out case. -/
def autoReleaseMarker : String := "auto-release label set to false"

/-! ### Store effects and the client collaborator -/

/-- A store mutation that succeeded during a pass.  Failed calls leave the
store unchanged and so are not recorded; the `Client` decides which calls
succeed. -/
inductive Effect
  | createPipelineRun (p : PipelineRun)
  | createBinding (b : SnapshotEnvironmentBinding)
  | deletePipelineRun (ns name : String)
  | patchRelease (r : Release)
  | statusPatch (r : Release)
  | syncSnapshot (s : Snapshot) (targetNs : String)
deriving DecidableEq

/-- Result of one chain operation: the driver control result, the in-memory
`Release` as left by the operation, and the successful store mutations in
order of execution. -/
structure OpOutcome where
  result : OperationResult
  release : Release
  effects : List Effect
deriving DecidableEq

/-- The resource-store collaborator (`client.Client` plus the syncer and the
clock), given as one response per call the adapter makes.  Reads return
`Except KError`; mutations return `none` on success and `some e` on
failure. -/
structure Client where
  getReleasePlan : String → String → Except KError ReleasePlan
  listReleasePlanAdmissions : String → String → Except KError (List ReleasePlanAdmission)
  getReleaseStrategy : String → String → Except KError ReleaseStrategy
  getEnterpriseContractPolicy : String → String → Except KError EnterpriseContractPolicy
  getSnapshot : String → String → Except KError Snapshot
  getEnvironment : String → String → Except KError Environment
  getApplication : String → String → Except KError Application
  listComponents : String → String → Except KError (List Component)
  listPipelineRuns : String → String → Except KError (List PipelineRun)
  listBindings : String → String → Except KError (List SnapshotEnvironmentBinding)
  getBinding : String → String → Except KError SnapshotEnvironmentBinding
  createPipelineRunRes : PipelineRun → Option KError
  createBindingRes : SnapshotEnvironmentBinding → Option KError
  deletePipelineRunRes : PipelineRun → Option KError
  patchReleaseRes : Release → Option KError
  statusPatchRes : Release → Option KError
  syncSnapshotRes : Snapshot → String → Option KError
  now : Nat

/-! ### The adapter, method by method -/

/-- `getReleasePlan`: fetch the plan referenced by the Release
(namespace = release namespace, name = `spec.releasePlan`). -/
def getReleasePlan (c : Client) (r : Release) : Except KError ReleasePlan :=
  c.getReleasePlan r.ns r.spec.releasePlan

/-- The selection loop of `getActiveReleasePlanAdmission` (lines 363–390):
walk the listed admissions, skip those for another application, report
ambiguity as soon as a second candidate appears, reject an opted-out
candidate, and otherwise remember the candidate. -/
def findActiveAdmission (plan : ReleasePlan) :
    List ReleasePlanAdmission → Option ReleasePlanAdmission →
    Except KError ReleasePlanAdmission
  | [], none =>
    .error (.custom (noAdmissionMsg plan.target plan.application))
  | [], some active => .ok active
  | rpa :: rest, active =>
    if rpa.application ≠ plan.application then
      findActiveAdmission plan rest active
    else if active.isSome then
      .error (.custom (multipleAdmissionsMsg plan.target plan.application))
    else
      match rpa.labels.lookup autoReleaseLabel with
      | some v =>
        if v = "false" then .error (.custom (autoReleaseFalseMsg rpa.name))
        else findActiveAdmission plan rest (some rpa)
      | none => findActiveAdmission plan rest (some rpa)

/-- `getActiveReleasePlanAdmission`: resolve the plan, list the admissions in
the plan's target namespace whose `spec.origin` is the plan's namespace, and
run the selection loop. -/
def getActiveReleasePlanAdmission (c : Client) (r : Release) :
    Except KError ReleasePlanAdmission :=
  match getReleasePlan c r with
  | .error e => .error e
  | .ok plan =>
    match c.listReleasePlanAdmissions plan.target plan.ns with
    | .error e => .error e
    | .ok items => findActiveAdmission plan items none

/-- `getReleasePipelineRun`: label-selector list (release name + namespace),
limited to one result; an empty result is `(nil, nil)` in Go, i.e.
`.ok none`. -/
def getReleasePipelineRun (c : Client) (r : Release) :
    Except KError (Option PipelineRun) :=
  match c.listPipelineRuns r.name r.ns with
  | .error e => .error e
  | .ok items => .ok items.head?

/-- The `MarkInvalid`-then-status-patch block repeated throughout the adapter:
mutate the in-memory Release and return
`reconciler.RequeueOnErrorOrStop(statusPatch)`. -/
def markInvalidAndPatch (c : Client) (r : Release) (reason : ReleaseReason)
    (msg : String) : OpOutcome :=
  let r2 := markInvalid r reason msg
  match c.statusPatchRes r2 with
  | some e => ⟨.requeueWithError e, r2, []⟩
  | none => ⟨.stopProcessing, r2, [.statusPatch r2]⟩

/-- `EnsureReleasePlanAdmissionEnabled` (lines 121–134): resolve the active
admission; on an error whose text mentions the multiple-admissions marker
mark the Release invalid (validation reason) and stop; on the opted-out
marker mark it invalid (target-disabled reason) and stop; on any other
outcome continue. -/
def EnsureReleasePlanAdmissionEnabled (c : Client) (r : Release) : OpOutcome :=
  match getActiveReleasePlanAdmission c r with
  | .error err =>
    if strContains err.errString multipleMarker then
      markInvalidAndPatch c r .validationError err.errString
    else if strContains err.errString autoReleaseMarker then
      markInvalidAndPatch c r .targetDisabledError err.errString
    else ⟨.continueProcessing, r, []⟩
  | .ok _ => ⟨.continueProcessing, r, []⟩

/-- Modelled from the spec: `tekton.NewReleasePipelineRun` and its builder
chain (the `tekton` package is not under analysis).  Spec section 6: the
builder takes the name stem and the strategy's namespace and stamps the
`release-name` / `release-namespace` labels used for the idempotent lookup;
strategy, policy and snapshot only parameterize the manifest. -/
def newReleasePipelineRun (r : Release) (strategy : ReleaseStrategy) :
    PipelineRun :=
  { ns := strategy.ns
    name := "release-pipelinerun"
    labels := [(releaseNameLabel, r.name), (releaseNamespaceLabel, r.ns)]
    succeededCondition := none }

/-- `createReleasePipelineRun`: build the manifest and create it; on success
the created object is returned together with the creation effect. -/
def createReleasePipelineRun (c : Client) (r : Release)
    (strategy : ReleaseStrategy) (_policy : EnterpriseContractPolicy)
    (_snapshot : Snapshot) : Except KError (PipelineRun × List Effect) :=
  let pr := newReleasePipelineRun r strategy
  match c.createPipelineRunRes pr with
  | some e => .error e
  | none => .ok (pr, [.createPipelineRun pr])

/-- `registerReleaseStatusData`: when both an execution and a strategy were
resolved this pass, write the serialized references and the target namespace
into status, mark the Release running, and status-patch; otherwise no-op. -/
def registerReleaseStatusData (c : Client) (r : Release)
    (pr? : Option PipelineRun) (strategy? : Option ReleaseStrategy) :
    Option KError × Release × List Effect :=
  match pr?, strategy? with
  | some pr, some strategy =>
    let r2 := markRunning
      { r with status :=
        { r.status with
          releasePipelineRun := pr.ns ++ sepStr ++ pr.name
          releaseStrategy := strategy.ns ++ sepStr ++ strategy.name
          target := pr.ns } }
    match c.statusPatchRes r2 with
    | some e => (some e, r2, [])
    | none => (none, r2, [.statusPatch r2])
  | _, _ => (none, r, [])

/-- The body of `EnsureReleasePipelineRunExists` after the initial lookup
(lines 144–185): when no execution was found, resolve admission, strategy,
policy and snapshot — each failure marking the Release invalid and stopping —
then create the execution; finally register the status data (which, on the
found path, is a no-op because no strategy was resolved). -/
def ensurePipelineRunRest (c : Client) (r : Release)
    (pr? : Option PipelineRun) : OpOutcome :=
  match pr? with
  | some pr =>
    match registerReleaseStatusData c r (some pr) none with
    | (some e, r2, eff) => ⟨.requeueWithError e, r2, eff⟩
    | (none, r2, eff) => ⟨.continueProcessing, r2, eff⟩
  | none =>
    match getActiveReleasePlanAdmission c r with
    | .error e => markInvalidAndPatch c r .releasePlanValidationError e.errString
    | .ok rpa =>
      match c.getReleaseStrategy rpa.ns rpa.releaseStrategy with
      | .error e => markInvalidAndPatch c r .validationError e.errString
      | .ok strategy =>
        match c.getEnterpriseContractPolicy strategy.ns strategy.policy with
        | .error e => markInvalidAndPatch c r .validationError e.errString
        | .ok policy =>
          match c.getSnapshot r.ns r.spec.snapshot with
          | .error e => markInvalidAndPatch c r .validationError e.errString
          | .ok snapshot =>
            match createReleasePipelineRun c r strategy policy snapshot with
            | .error e => ⟨.requeueWithError e, r, []⟩
            | .ok (pr, eff) =>
              match registerReleaseStatusData c r (some pr) (some strategy) with
              | (some e, r2, eff2) => ⟨.requeueWithError e, r2, eff ++ eff2⟩
              | (none, r2, eff2) => ⟨.continueProcessing, r2, eff ++ eff2⟩

/-- `EnsureReleasePipelineRunExists` (lines 138–186): look the execution up by
label; a non-not-found lookup failure is requeued with the error; otherwise
proceed with the (possibly absent) execution. -/
def EnsureReleasePipelineRunExists (c : Client) (r : Release) : OpOutcome :=
  match getReleasePipelineRun c r with
  | .error e =>
    if ¬e.isNotFound then ⟨.requeueWithError e, r, []⟩
    else ensurePipelineRunRest c r none
  | .ok pr? => ensurePipelineRunRest c r pr?

/-- `registerReleasePipelineRunStatus`: when the execution is done, stamp the
completion time and mark the Release succeeded or failed from the `Succeeded`
condition, then status-patch; otherwise no-op.  (When `isDone` holds the
condition is present, so the `none` arm is unreachable.) -/
def registerReleasePipelineRunStatus (c : Client) (r : Release)
    (pr : PipelineRun) : Option KError × Release × List Effect :=
  if pr.isDone then
    match pr.succeededCondition with
    | some cond =>
      let r1 := { r with status := { r.status with completionTime := some c.now } }
      let r2 :=
        if cond.status = CondStatus.ctrue then markSucceeded r1
        else markFailed r1 .pipelineFailed cond.message
      match c.statusPatchRes r2 with
      | some e => (some e, r2, [])
      | none => (none, r2, [.statusPatch r2])
    | none => (none, r, [])
  else (none, r, [])

/-- `EnsureReleasePipelineStatusIsTracked` (lines 190–204): only while the
Release has started and is not done; look the execution up, requeue lookup
errors, track a found execution, and continue when none matches. -/
def EnsureReleasePipelineStatusIsTracked (c : Client) (r : Release) : OpOutcome :=
  if !r.hasStarted || r.isDone then ⟨.continueProcessing, r, []⟩
  else
    match getReleasePipelineRun c r with
    | .error e => ⟨.requeueWithError e, r, []⟩
    | .ok (some pr) =>
      match registerReleasePipelineRunStatus c r pr with
      | (some e, r2, eff) => ⟨.requeueWithError e, r2, eff⟩
      | (none, r2, eff) => ⟨.continueProcessing, r2, eff⟩
    | .ok none => ⟨.continueProcessing, r, []⟩

/-- `getEnvironment`: fetch the environment declared by the admission, from
the admission's namespace. -/
def getEnvironment (c : Client) (rpa : ReleasePlanAdmission) :
    Except KError Environment :=
  c.getEnvironment rpa.ns rpa.environment

/-- `getSnapshotEnvironmentBinding` (lines 526–546): list the bindings of the
environment's namespace whose `spec.environment` matches, then return the
first whose application matches the admission, or `nil` when none does. -/
def getSnapshotEnvironmentBinding (c : Client) (env : Environment)
    (rpa : ReleasePlanAdmission) :
    Except KError (Option SnapshotEnvironmentBinding) :=
  match c.listBindings env.ns env.name with
  | .error e => .error e
  | .ok items => .ok (items.find? fun b => b.application = rpa.application)

/-- `syncResources`: re-resolve the admission and the snapshot and mirror the
snapshot into the admission's namespace via the syncer. -/
def syncResources (c : Client) (r : Release) : Except KError (List Effect) :=
  match getActiveReleasePlanAdmission c r with
  | .error e => .error e
  | .ok rpa =>
    match c.getSnapshot r.ns r.spec.snapshot with
    | .error e => .error e
    | .ok snapshot =>
      match c.syncSnapshotRes snapshot rpa.ns with
      | some e => .error e
      | none => .ok [.syncSnapshot snapshot rpa.ns]

/-- Modelled from the spec: `gitops.NewSnapshotEnvironmentBinding(components,
snapshot, environment)` (the `gitops` package is not under analysis).  Spec
sections 3 and 4.4: the binding lives where the environment does, is
identified by the environment's name and the snapshot's owning application,
and starts with no deployment condition.  The argument list mirrors the call
site. -/
def newSnapshotEnvironmentBinding (_components : List Component)
    (snapshot : Snapshot) (env : Environment) : SnapshotEnvironmentBinding :=
  { ns := env.ns
    name := env.name ++ "-binding"
    environment := env.name
    application := snapshot.application
    allComponentsDeployed := none }

/-- `getSnapshotEnvironmentResources`: application (by the admission's
application name, in the admission's namespace), its components, and the
Release's snapshot. -/
def getSnapshotEnvironmentResources (c : Client) (r : Release)
    (rpa : ReleasePlanAdmission) :
    Except KError (Application × List Component × Snapshot) :=
  match c.getApplication rpa.ns rpa.application with
  | .error e => .error e
  | .ok app =>
    match c.listComponents app.ns app.name with
    | .error e => .error e
    | .ok comps =>
      match c.getSnapshot r.ns r.spec.snapshot with
      | .error e => .error e
      | .ok snap => .ok (app, comps, snap)

/-- `createSnapshotEnvironmentBinding`: resolve the binding's resources,
construct it and create it.  (The controller-reference and owner-annotation
steps only decorate metadata and are modelled as always succeeding.) -/
def createSnapshotEnvironmentBinding (c : Client) (r : Release)
    (env : Environment) (rpa : ReleasePlanAdmission) :
    Except KError (SnapshotEnvironmentBinding × List Effect) :=
  match getSnapshotEnvironmentResources c r rpa with
  | .error e => .error e
  | .ok (_app, comps, snap) =>
    let b := newSnapshotEnvironmentBinding comps snap env
    match c.createBindingRes b with
    | some e => .error e
    | none => .ok (b, [.createBinding b])

/-- The create-or-continue tail of `EnsureSnapshotEnvironmentBindingExists`
(lines 234–255): an existing binding means continue; otherwise sync, create,
record the serialized binding reference in status and status-patch. -/
def bindingLookupRest (c : Client) (r : Release) (env : Environment)
    (rpa : ReleasePlanAdmission) (b? : Option SnapshotEnvironmentBinding) :
    OpOutcome :=
  match b? with
  | some _ => ⟨.continueProcessing, r, []⟩
  | none =>
    match syncResources c r with
    | .error e => ⟨.requeueWithError e, r, []⟩
    | .ok effSync =>
      match createSnapshotEnvironmentBinding c r env rpa with
      | .error e => ⟨.requeueWithError e, r, effSync⟩
      | .ok (b, effC) =>
        let r2 := { r with status :=
          { r.status with snapshotEnvironmentBinding := b.ns ++ sepStr ++ b.name } }
        match c.statusPatchRes r2 with
        | some e => ⟨.requeueWithError e, r2, effSync ++ effC⟩
        | none => ⟨.continueProcessing, r2, effSync ++ effC ++ [.statusPatch r2]⟩

/-- `EnsureSnapshotEnvironmentBindingExists` (lines 208–256): only once the
Release has succeeded and before a deployment outcome is recorded; resolve
the admission (requeueing failures), skip when it declares no environment,
resolve the environment, look an existing binding up (a not-found error is
tolerated) and fall into the create-or-continue tail. -/
def EnsureSnapshotEnvironmentBindingExists (c : Client) (r : Release) :
    OpOutcome :=
  if !r.hasSucceeded || r.hasBeenDeployed then ⟨.continueProcessing, r, []⟩
  else
    match getActiveReleasePlanAdmission c r with
    | .error e => ⟨.requeueWithError e, r, []⟩
    | .ok rpa =>
      if rpa.environment = "" then ⟨.continueProcessing, r, []⟩
      else
        match getEnvironment c rpa with
        | .error e => ⟨.requeueWithError e, r, []⟩
        | .ok env =>
          match getSnapshotEnvironmentBinding c env rpa with
          | .error e =>
            if ¬e.isNotFound then ⟨.requeueWithError e, r, []⟩
            else bindingLookupRest c r env rpa none
          | .ok b? => bindingLookupRest c r env rpa b?

/-- `getSnapshotEnvironmentBindingFromReleaseStatus` (lines 550–568): split
the stored reference at the separator; anything but exactly two segments is
the descriptive parse error; otherwise fetch the binding by the recovered
namespaced name. -/
def getSnapshotEnvironmentBindingFromReleaseStatus (c : Client) (r : Release) :
    Except KError SnapshotEnvironmentBinding :=
  match goSplit r.status.snapshotEnvironmentBinding sepChar with
  | [nsp, nm] => c.getBinding nsp nm
  | _ => .error (.custom (invalidBindingRefMsg r.status.snapshotEnvironmentBinding))

/-- `registerGitOpsDeploymentStatus`: from the binding's aggregate
`AllComponentsDeployed` condition — absent: no-op; unknown: mark deploying;
true/false: mark deployed with that status — then status-patch. -/
def registerGitOpsDeploymentStatus (c : Client) (r : Release)
    (b : SnapshotEnvironmentBinding) : Option KError × Release × List Effect :=
  match b.allComponentsDeployed with
  | none => (none, r, [])
  | some cond =>
    let r2 :=
      if cond.status = CondStatus.cunknown then
        markDeploying r cond.reason cond.message
      else markDeployed r cond.status cond.reason cond.message
    match c.statusPatchRes r2 with
    | some e => (some e, r2, [])
    | none => (none, r2, [.statusPatch r2])

/-- `EnsureSnapshotEnvironmentBindingIsTracked` (lines 260–272): only once
the Release has succeeded, a binding reference is recorded, and no deployment
outcome has been recorded; parse-and-fetch the binding (requeueing failures,
including the parse error) and track its deployment condition. -/
def EnsureSnapshotEnvironmentBindingIsTracked (c : Client) (r : Release) :
    OpOutcome :=
  if !r.hasSucceeded || r.status.snapshotEnvironmentBinding = "" ||
      r.hasBeenDeployed then ⟨.continueProcessing, r, []⟩
  else
    match getSnapshotEnvironmentBindingFromReleaseStatus c r with
    | .error e => ⟨.requeueWithError e, r, []⟩
    | .ok b =>
      match registerGitOpsDeploymentStatus c r b with
      | (some e, r2, eff) => ⟨.requeueWithError e, r2, eff⟩
      | (none, r2, eff) => ⟨.continueProcessing, r2, eff⟩

/-- `finalizeRelease` (lines 324–340): look the execution up; delete it when
present, tolerating a not-found deletion result; report other failures. -/
def finalizeRelease (c : Client) (r : Release) : Except KError (List Effect) :=
  match getReleasePipelineRun c r with
  | .error e => .error e
  | .ok none => .ok []
  | .ok (some pr) =>
    match c.deletePipelineRunRes pr with
    | none => .ok [.deletePipelineRun pr.ns pr.name]
    | some e => if ¬e.isNotFound then .error e else .ok []

/-- `EnsureFinalizersAreCalled` (lines 75–96): continue unless the Release is
marked for deletion; with the finalizer present, finalize (requeueing
failures with the error), remove the finalizer through a patch (requeueing a
patch failure), and in every deletion case requeue so no later operation
runs. -/
def EnsureFinalizersAreCalled (c : Client) (r : Release) : OpOutcome :=
  match r.deletionTimestamp with
  | none => ⟨.continueProcessing, r, []⟩
  | some _ =>
    if finalizerName ∈ r.finalizers then
      match finalizeRelease c r with
      | .error e => ⟨.requeueWithError e, r, []⟩
      | .ok eff =>
        let r2 := { r with finalizers := r.finalizers.filter (· ≠ finalizerName) }
        match c.patchReleaseRes r2 with
        | some e => ⟨.requeueWithError e, r2, eff⟩
        | none => ⟨.requeue, r2, eff ++ [.patchRelease r2]⟩
    else ⟨.requeue, r, []⟩

/-- `EnsureFinalizerIsAdded` (lines 99–117): when the finalizer token is
absent, append it and patch (`reconciler.RequeueOnErrorOrContinue`);
otherwise continue.  The operation does not consult the deletion
timestamp. -/
def EnsureFinalizerIsAdded (c : Client) (r : Release) : OpOutcome :=
  if finalizerName ∈ r.finalizers then ⟨.continueProcessing, r, []⟩
  else
    let r2 := { r with finalizers := r.finalizers ++ [finalizerName] }
    match c.patchReleaseRes r2 with
    | some e => ⟨.requeueWithError e, r2, []⟩
    | none => ⟨.continueProcessing, r2, [.patchRelease r2]⟩

/-! ### A concrete store: clusters and the honest client

To state claims about "cluster states" (rather than arbitrary call
responses), a `Cluster` gathers the persisted objects, and `honestClient`
answers every call faithfully from it: gets find by namespaced name or return
not-found, lists apply exactly the selectors the adapter passes (including
the `Limit(1)` on the execution lookup), and every mutation succeeds. -/

/-- The persisted resources a reconciliation pass can observe. -/
structure Cluster where
  releasePlans : List ReleasePlan
  releasePlanAdmissions : List ReleasePlanAdmission
  releaseStrategies : List ReleaseStrategy
  policies : List EnterpriseContractPolicy
  snapshots : List Snapshot
  environments : List Environment
  applications : List Application
  components : List Component
  pipelineRuns : List PipelineRun
  bindings : List SnapshotEnvironmentBinding
deriving DecidableEq

/-- A faithful namespaced-name get: the first object with the requested
namespace and name, or the distinguished not-found error. -/
def honestGet {α : Type} (elemNs elemName : α → String) (items : List α)
    (nsp nm : String) : Except KError α :=
  match items.find? (fun x => elemNs x = nsp && elemName x = nm) with
  | some x => .ok x
  | none => .error (.notFound "not found")

/-- The label selector of the execution lookup: the two release labels carry
the given name and namespace. -/
def prMatchesLabels (p : PipelineRun) (nm nsp : String) : Bool :=
  p.labels.lookup releaseNameLabel = some nm &&
    p.labels.lookup releaseNamespaceLabel = some nsp

/-- The client a cluster state induces. -/
def honestClient (cl : Cluster) : Client where
  getReleasePlan := honestGet (·.ns) (·.name) cl.releasePlans
  listReleasePlanAdmissions := fun nsp orig =>
    .ok (cl.releasePlanAdmissions.filter fun a => a.ns = nsp && a.origin = orig)
  getReleaseStrategy := honestGet (·.ns) (·.name) cl.releaseStrategies
  getEnterpriseContractPolicy := honestGet (·.ns) (·.name) cl.policies
  getSnapshot := honestGet (·.ns) (·.name) cl.snapshots
  getEnvironment := honestGet (·.ns) (·.name) cl.environments
  getApplication := honestGet (·.ns) (·.name) cl.applications
  listComponents := fun nsp app =>
    .ok (cl.components.filter fun x => x.ns = nsp && x.application = app)
  listPipelineRuns := fun nm nsp =>
    .ok ((cl.pipelineRuns.filter fun p => prMatchesLabels p nm nsp).take 1)
  listBindings := fun nsp envName =>
    .ok (cl.bindings.filter fun b => b.ns = nsp && b.environment = envName)
  getBinding := honestGet (·.ns) (·.name) cl.bindings
  createPipelineRunRes := fun _ => none
  createBindingRes := fun _ => none
  deletePipelineRunRes := fun _ => none
  patchReleaseRes := fun _ => none
  statusPatchRes := fun _ => none
  syncSnapshotRes := fun _ _ => none
  now := 0

/-- How a successful store mutation changes the cluster (patches touch only
the Release, which lives outside `Cluster`; the snapshot sync mirrors objects
the adapter never reads back). -/
def applyEffect (cl : Cluster) : Effect → Cluster
  | .createPipelineRun p => { cl with pipelineRuns := cl.pipelineRuns ++ [p] }
  | .createBinding b => { cl with bindings := cl.bindings ++ [b] }
  | .deletePipelineRun nsp nm =>
    { cl with pipelineRuns :=
      cl.pipelineRuns.filter fun p => !(p.ns = nsp && p.name = nm) }
  | .patchRelease _ => cl
  | .statusPatch _ => cl
  | .syncSnapshot _ _ => cl

/-- Apply a pass's successful mutations in order. -/
def applyEffects (cl : Cluster) (l : List Effect) : Cluster :=
  l.foldl applyEffect cl

/-- Recognise execution-creating effects. -/
def Effect.isCreatePipelineRun : Effect → Bool
  | .createPipelineRun _ => true
  | _ => false

/-- Recognise binding-creating effects. -/
def Effect.isCreateBinding : Effect → Bool
  | .createBinding _ => true
  | _ => false

/-- Number of executions a list of effects creates. -/
def countPRCreates (l : List Effect) : Nat :=
  (l.filter Effect.isCreatePipelineRun).length

/-- Number of bindings a list of effects creates. -/
def countBindingCreates (l : List Effect) : Nat :=
  (l.filter Effect.isCreateBinding).length

/-! ### Derived definitions and concrete fixtures used by the proofs -/

/-- The application-matching candidates of a listed admission sequence, in
list order (the loop skips exactly the non-matching ones). -/
def candidates (plan : ReleasePlan) (items : List ReleasePlanAdmission) :
    List ReleasePlanAdmission :=
  items.filter fun a => a.application == plan.application

/-- The admissions the honest client's list call returns for a plan: those in
the plan's target namespace whose `spec.origin` is the plan's namespace. -/
def admissionsFor (cl : Cluster) (plan : ReleasePlan) :
    List ReleasePlanAdmission :=
  cl.releasePlanAdmissions.filter fun a => a.ns = plan.target && a.origin = plan.ns

def wPlan : ReleasePlan := ⟨"dev", "plan", "prod", "app"⟩

def wRpa : ReleasePlanAdmission := ⟨"prod", "rpa", [], "dev", "app", "env", "strat"⟩

def wSnap : Snapshot := ⟨"dev", "snap", "app"⟩

def wEnv : Environment := ⟨"prod", "env"⟩

def wStrategy : ReleaseStrategy := ⟨"prod", "strat", "pol"⟩

def wPolicy : EnterpriseContractPolicy := ⟨"prod", "pol"⟩

def wApp : Application := ⟨"prod", "app"⟩

def wRelease : Release :=
  ⟨"rel", "dev", none, [], ⟨"plan", "snap"⟩, ⟨"", "", "", "", none⟩,
    ReleaseState.succeeded, DeployState.notStarted⟩

def wPR : PipelineRun :=
  ⟨"prod", "release-pipelinerun",
    [(releaseNameLabel, "rel"), (releaseNamespaceLabel, "dev")], none⟩

def wBinding : SnapshotEnvironmentBinding := ⟨"prod", "env-binding", "env", "app", none⟩

def wCluster : Cluster :=
  ⟨[wPlan], [wRpa], [wStrategy], [wPolicy], [wSnap], [wEnv], [wApp], [],
    [wPR], [wBinding]⟩

def c2RpaA : ReleasePlanAdmission :=
  ⟨"prod", "rpaA", [(autoReleaseLabel, "false")], "dev", "app", "", "strat"⟩

def c2RpaB : ReleasePlanAdmission :=
  ⟨"prod", "rpaB", [], "dev", "app", "", "strat"⟩

def c2Cluster : Cluster :=
  ⟨[wPlan], [c2RpaA, c2RpaB], [], [], [], [], [], [], [], []⟩

def c2ClusterB : Cluster :=
  ⟨[wPlan], [c2RpaB, c2RpaA], [], [], [], [], [], [], [], []⟩

def c3Cluster : Cluster :=
  ⟨[wPlan], [c2RpaA], [], [], [], [], [], [], [], []⟩

def c5Cluster : Cluster :=
  ⟨[wPlan], [], [], [], [], [], [], [], [], []⟩

/-- A client whose plan fetch fails with a transport error while the
execution lookup succeeds with no match. -/
def c4Client : Client where
  getReleasePlan := fun _ _ => .error (.transient "connection refused")
  listReleasePlanAdmissions := fun _ _ => .ok []
  getReleaseStrategy := fun _ _ => .error (.notFound "not found")
  getEnterpriseContractPolicy := fun _ _ => .error (.notFound "not found")
  getSnapshot := fun _ _ => .error (.notFound "not found")
  getEnvironment := fun _ _ => .error (.notFound "not found")
  getApplication := fun _ _ => .error (.notFound "not found")
  listComponents := fun _ _ => .ok []
  listPipelineRuns := fun _ _ => .ok []
  listBindings := fun _ _ => .ok []
  getBinding := fun _ _ => .error (.notFound "not found")
  createPipelineRunRes := fun _ => none
  createBindingRes := fun _ => none
  deletePipelineRunRes := fun _ => none
  patchReleaseRes := fun _ => none
  statusPatchRes := fun _ => none
  syncSnapshotRes := fun _ _ => none
  now := 0

/-- A cluster holding the whole resolution chain but no execution yet. -/
def c4Cluster : Cluster :=
  ⟨[wPlan], [wRpa], [wStrategy], [wPolicy], [wSnap], [wEnv], [wApp], [], [], []⟩

/-- The honest client over that cluster, except that creating the execution
fails with a transport error. -/
def c4bClient : Client :=
  { honestClient c4Cluster with
    createPipelineRunRes := fun _ => some (.transient "create failed") }

def c6Release : Release :=
  ⟨"rel", "dev", some 1, [finalizerName], ⟨"plan", "snap"⟩,
    ⟨"", "", "", "", none⟩, ReleaseState.running, DeployState.notStarted⟩

def c7Release : Release :=
  ⟨"rel", "dev", some 5, [], ⟨"plan", "snap"⟩, ⟨"", "", "", "", none⟩,
    ReleaseState.pending, DeployState.notStarted⟩

def c8Release : Release :=
  ⟨"rel", "dev", none, [], ⟨"plan", "snap"⟩, ⟨"", "", "", "no-separator", none⟩,
    ReleaseState.succeeded, DeployState.notStarted⟩

def c9Release : Release :=
  ⟨"rel", "dev", none, [], ⟨"plan", "snap"⟩,
    ⟨"", "", "", "prod/env-binding", none⟩,
    ReleaseState.succeeded, DeployState.notStarted⟩

def c10Release : Release :=
  ⟨"rel", "dev", none, [], ⟨"plan", "snap"⟩, ⟨"", "", "", "", none⟩,
    ReleaseState.running, DeployState.notStarted⟩

/-! ### Lemmas about the string helpers -/

theorem startsWithChars_append (l r : List Char) :
    startsWithChars l (l ++ r) = true := by
  induction l with
  | nil => rfl
  | cons c cs ih => simp [startsWithChars, ih]

theorem hasSubChars_of_startsWith (pat l : List Char)
    (h : startsWithChars pat l = true) : hasSubChars pat l = true := by
  cases l with
  | nil => exact h
  | cons c cs => simp [hasSubChars, h]

theorem hasSubChars_cons (pat : List Char) (c : Char) (l : List Char)
    (h : hasSubChars pat l = true) : hasSubChars pat (c :: l) = true := by
  simp [hasSubChars, h]

theorem hasSubChars_append_left (pat r : List Char) :
    hasSubChars pat (pat ++ r) = true :=
  hasSubChars_of_startsWith _ _ (startsWithChars_append pat r)

theorem hasSubChars_append_right (l pat : List Char) :
    hasSubChars pat (l ++ pat) = true := by
  induction l with
  | nil =>
    simpa using hasSubChars_of_startsWith pat pat
      (by simpa using startsWithChars_append pat [])
  | cons c cs ih => exact hasSubChars_cons _ _ _ ih

theorem String.data_append' (a b : String) : (a ++ b).data = a.data ++ b.data := by
  cases a; cases b; rfl

theorem strContains_append_left (p tail : String) :
    strContains (p ++ tail) p = true := by
  simpa [strContains, String.data_append'] using
    hasSubChars_append_left p.data tail.data

theorem strContains_append_right (head p : String) :
    strContains (head ++ p) p = true := by
  simpa [strContains, String.data_append'] using
    hasSubChars_append_right head.data p.data

/-- The multiple-admissions message always carries the marker substring the
gating operation greps for. -/
theorem multipleMsg_contains (t a : String) :
    strContains (multipleAdmissionsMsg t a) multipleMarker = true :=
  strContains_append_left multipleMarker _

/-- The opted-out message always carries the marker substring the gating
operation greps for. -/
theorem autoMsg_contains (n : String) :
    strContains (autoReleaseFalseMsg n) autoReleaseMarker = true :=
  strContains_append_right _ autoReleaseMarker


/-! ### Lemmas about the admission-selection loop -/


theorem candidates_cons_pos (plan : ReleasePlan) (a : ReleasePlanAdmission)
    (rest : List ReleasePlanAdmission) (ha : a.application = plan.application) :
    candidates plan (a :: rest) = a :: candidates plan rest := by
  simp [candidates, List.filter_cons, ha]

theorem candidates_cons_neg (plan : ReleasePlan) (a : ReleasePlanAdmission)
    (rest : List ReleasePlanAdmission) (ha : ¬a.application = plan.application) :
    candidates plan (a :: rest) = candidates plan rest := by
  simp [candidates, List.filter_cons, ha]

theorem findActiveAdmission_cons_skip (plan : ReleasePlan)
    (a : ReleasePlanAdmission) (rest : List ReleasePlanAdmission)
    (active : Option ReleasePlanAdmission)
    (ha : ¬a.application = plan.application) :
    findActiveAdmission plan (a :: rest) active =
      findActiveAdmission plan rest active := by
  simp [findActiveAdmission, ha]

theorem findActiveAdmission_cons_second (plan : ReleasePlan)
    (a : ReleasePlanAdmission) (rest : List ReleasePlanAdmission)
    (x : ReleasePlanAdmission) (ha : a.application = plan.application) :
    findActiveAdmission plan (a :: rest) (some x) =
      .error (.custom (multipleAdmissionsMsg plan.target plan.application)) := by
  simp [findActiveAdmission, ha]

theorem findActiveAdmission_cons_optout (plan : ReleasePlan)
    (a : ReleasePlanAdmission) (rest : List ReleasePlanAdmission)
    (ha : a.application = plan.application)
    (hl : a.labels.lookup autoReleaseLabel = some "false") :
    findActiveAdmission plan (a :: rest) none =
      .error (.custom (autoReleaseFalseMsg a.name)) := by
  simp [findActiveAdmission, ha, hl]

theorem findActiveAdmission_cons_take (plan : ReleasePlan)
    (a : ReleasePlanAdmission) (rest : List ReleasePlanAdmission)
    (ha : a.application = plan.application)
    (hl : a.labels.lookup autoReleaseLabel ≠ some "false") :
    findActiveAdmission plan (a :: rest) none =
      findActiveAdmission plan rest (some a) := by
  simp only [findActiveAdmission, ha]
  rw [if_neg (by simp)]
  simp only [Option.isSome_none, Bool.false_eq_true, if_false]
  cases hlv : a.labels.lookup autoReleaseLabel with
  | none => rfl
  | some v =>
    have hv : ¬v = "false" := by rintro rfl; exact hl hlv
    simp [hv]

theorem findActiveAdmission_of_no_candidate_some (plan : ReleasePlan)
    (items : List ReleasePlanAdmission) (x : ReleasePlanAdmission)
    (h : candidates plan items = []) :
    findActiveAdmission plan items (some x) = .ok x := by
  induction items with
  | nil => rfl
  | cons a rest ih =>
    by_cases ha : a.application = plan.application
    · rw [candidates_cons_pos plan a rest ha] at h
      exact absurd h (by simp)
    · rw [candidates_cons_neg plan a rest ha] at h
      rw [findActiveAdmission_cons_skip plan a rest _ ha]
      exact ih h

theorem findActiveAdmission_of_no_candidate_none (plan : ReleasePlan)
    (items : List ReleasePlanAdmission)
    (h : candidates plan items = []) :
    findActiveAdmission plan items none =
      .error (.custom (noAdmissionMsg plan.target plan.application)) := by
  induction items with
  | nil => rfl
  | cons a rest ih =>
    by_cases ha : a.application = plan.application
    · rw [candidates_cons_pos plan a rest ha] at h
      exact absurd h (by simp)
    · rw [candidates_cons_neg plan a rest ha] at h
      rw [findActiveAdmission_cons_skip plan a rest _ ha]
      exact ih h

theorem findActiveAdmission_of_candidate_some (plan : ReleasePlan)
    (items : List ReleasePlanAdmission) (x : ReleasePlanAdmission)
    (h : candidates plan items ≠ []) :
    findActiveAdmission plan items (some x) =
      .error (.custom (multipleAdmissionsMsg plan.target plan.application)) := by
  induction items with
  | nil => simp [candidates] at h
  | cons a rest ih =>
    by_cases ha : a.application = plan.application
    · exact findActiveAdmission_cons_second plan a rest x ha
    · rw [candidates_cons_neg plan a rest ha] at h
      rw [findActiveAdmission_cons_skip plan a rest _ ha]
      exact ih h

/-- Behaviour of the loop started with no remembered candidate, by the shape
of the matching-candidate list: an opted-out head fails with the opt-out
error; a sole clean head wins; a clean head followed by anything fails with
the multiple-admissions error. -/
theorem findActiveAdmission_none_cases (plan : ReleasePlan)
    (items : List ReleasePlanAdmission) (a : ReleasePlanAdmission)
    (rest : List ReleasePlanAdmission)
    (h : candidates plan items = a :: rest) :
    (a.labels.lookup autoReleaseLabel = some "false" →
      findActiveAdmission plan items none =
        .error (.custom (autoReleaseFalseMsg a.name)))
    ∧ (a.labels.lookup autoReleaseLabel ≠ some "false" → rest = [] →
      findActiveAdmission plan items none = .ok a)
    ∧ (a.labels.lookup autoReleaseLabel ≠ some "false" → rest ≠ [] →
      findActiveAdmission plan items none =
        .error (.custom (multipleAdmissionsMsg plan.target plan.application))) := by
  induction items with
  | nil => simp [candidates] at h
  | cons b tail ih =>
    by_cases hb : b.application = plan.application
    · rw [candidates_cons_pos plan b tail hb] at h
      obtain ⟨rfl, hrest⟩ : b = a ∧ candidates plan tail = rest :=
        ⟨List.head_eq_of_cons_eq h, List.tail_eq_of_cons_eq h⟩
      refine ⟨?_, ?_, ?_⟩
      · intro hlbl
        exact findActiveAdmission_cons_optout plan b tail hb hlbl
      · intro hlbl hrestnil
        rw [findActiveAdmission_cons_take plan b tail hb hlbl]
        exact findActiveAdmission_of_no_candidate_some plan tail b
          (hrest.trans hrestnil)
      · intro hlbl hrestne
        rw [findActiveAdmission_cons_take plan b tail hb hlbl]
        exact findActiveAdmission_of_candidate_some plan tail b
          (fun hnil => hrestne ((hrest.symm.trans hnil)))
    · rw [candidates_cons_neg plan b tail hb] at h
      rw [findActiveAdmission_cons_skip plan b tail _ hb]
      exact ih h

/-- The loop never hands back an opted-out admission. -/
theorem findActiveAdmission_ok_not_opted_out (plan : ReleasePlan) :
    ∀ (items : List ReleasePlanAdmission) (active : Option ReleasePlanAdmission)
      (a : ReleasePlanAdmission),
      (∀ x, active = some x → x.labels.lookup autoReleaseLabel ≠ some "false") →
      findActiveAdmission plan items active = .ok a →
      a.labels.lookup autoReleaseLabel ≠ some "false" := by
  intro items
  induction items with
  | nil =>
    intro active a hinv h
    cases active with
    | none => simp [findActiveAdmission] at h
    | some x =>
      simp only [findActiveAdmission, Except.ok.injEq] at h
      exact h ▸ hinv x rfl
  | cons b tail ih =>
    intro active a hinv h
    by_cases hb : b.application = plan.application
    · cases active with
      | some x =>
        rw [findActiveAdmission_cons_second plan b tail x hb] at h
        exact absurd h (by simp)
      | none =>
        cases hl : b.labels.lookup autoReleaseLabel with
        | none =>
          rw [findActiveAdmission_cons_take plan b tail hb (by simp [hl])] at h
          exact ih (some b) a (by intro x hx; cases hx; simp [hl]) h
        | some v =>
          by_cases hv : v = "false"
          · subst hv
            rw [findActiveAdmission_cons_optout plan b tail hb hl] at h
            exact absurd h (by simp)
          · rw [findActiveAdmission_cons_take plan b tail hb
              (by simp [hl, hv])] at h
            refine ih (some b) a ?_ h
            intro x hx; cases hx; simp [hl, hv]
    · rw [findActiveAdmission_cons_skip plan b tail _ hb] at h
      exact ih active a hinv h

/-! ### Lemmas about the honest client -/

theorem honestGet_ok {α : Type} (elemNs elemName : α → String)
    (items : List α) (nsp nm : String) (x : α)
    (h : honestGet elemNs elemName items nsp nm = .ok x) :
    elemNs x = nsp ∧ elemName x = nm := by
  unfold honestGet at h
  cases hf : items.find? (fun y => elemNs y = nsp && elemName y = nm) with
  | none => rw [hf] at h; exact absurd h (by simp)
  | some y =>
    rw [hf] at h
    have hy := List.find?_some hf
    simp only [Bool.and_eq_true, decide_eq_true_eq] at hy
    cases h
    exact hy


/-- Against the honest client, admission resolution is exactly the selection
loop over the target-and-origin-filtered admissions. -/
theorem getActive_honest (cl : Cluster) (r : Release) (plan : ReleasePlan)
    (hp : honestGet (·.ns) (·.name) cl.releasePlans r.ns r.spec.releasePlan
      = .ok plan) :
    getActiveReleasePlanAdmission (honestClient cl) r =
      findActiveAdmission plan (admissionsFor cl plan) none := by
  simp [getActiveReleasePlanAdmission, getReleasePlan, honestClient, hp,
    admissionsFor]

/-! ### Lemmas about the split/join pair -/

theorem goSplitChars_ne_nil (sep : Char) (l : List Char) :
    goSplitChars sep l ≠ [] := by
  cases l with
  | nil => simp [goSplitChars]
  | cons c cs =>
    simp only [goSplitChars]
    by_cases h : c = sep
    · simp [h]
    · simp only [h, if_false]
      cases goSplitChars sep cs <;> simp

theorem goSplitChars_no_sep (sep : Char) (l : List Char) (h : sep ∉ l) :
    goSplitChars sep l = [l] := by
  induction l with
  | nil => rfl
  | cons c cs ih =>
    have hc : ¬c = sep := fun hc => h (hc ▸ List.mem_cons_self c cs)
    have hcs : sep ∉ cs := fun hm => h (List.mem_cons_of_mem c hm)
    simp only [goSplitChars, hc, if_false, ih hcs]

theorem goSplitChars_append (sep : Char) (a b : List Char) (h : sep ∉ a) :
    goSplitChars sep (a ++ sep :: b) = a :: goSplitChars sep b := by
  induction a with
  | nil => simp [goSplitChars]
  | cons c cs ih =>
    have hc : ¬c = sep := fun hc => h (hc ▸ List.mem_cons_self c cs)
    have hcs : sep ∉ cs := fun hm => h (List.mem_cons_of_mem c hm)
    simp only [List.cons_append, goSplitChars, hc, if_false]
    rw [show cs.append (sep :: b) = cs ++ sep :: b from rfl, ih hcs]

theorem joinSepChars_goSplitChars (sep : Char) (l : List Char) :
    joinSepChars sep (goSplitChars sep l) = l := by
  induction l with
  | nil => rfl
  | cons c cs ih =>
    simp only [goSplitChars]
    by_cases hc : c = sep
    · subst hc
      simp only [if_pos rfl]
      cases hs : goSplitChars c cs with
      | nil => exact absurd hs (goSplitChars_ne_nil c cs)
      | cons h t =>
        rw [hs] at ih
        simpa [joinSepChars] using ih
    · simp only [hc, if_false]
      cases hs : goSplitChars sep cs with
      | nil => exact absurd hs (goSplitChars_ne_nil sep cs)
      | cons h t =>
        rw [hs] at ih
        cases t with
        | nil => simpa [joinSepChars] using ih
        | cons t1 ts => simpa [joinSepChars] using ih

theorem goSplitChars_parts_no_sep (sep : Char) (l : List Char) :
    ∀ part ∈ goSplitChars sep l, sep ∉ part := by
  induction l with
  | nil => simp [goSplitChars]
  | cons c cs ih =>
    intro part hp
    simp only [goSplitChars] at hp
    by_cases hc : c = sep
    · rw [if_pos hc] at hp
      rcases List.mem_cons.mp hp with h | h
      · subst h; simp
      · exact ih part h
    · rw [if_neg hc] at hp
      cases hs : goSplitChars sep cs with
      | nil => exact absurd hs (goSplitChars_ne_nil sep cs)
      | cons hd tl =>
        rw [hs] at hp
        rcases List.mem_cons.mp hp with h | h
        · subst h
          intro hmem
          rcases List.mem_cons.mp hmem with h' | h'
          · exact hc h'.symm
          · exact ih hd (hs ▸ List.mem_cons_self hd tl) h'
        · exact ih part (hs ▸ List.mem_cons_of_mem hd h)

theorem String.mk_data' (s : String) : String.mk s.data = s := by
  cases s; rfl

theorem String.eq_of_data_eq (a b : String) (h : a.data = b.data) : a = b := by
  rw [← String.mk_data' a, ← String.mk_data' b, h]

/-- Writing `ns</>name` with separator-free components splits back into
exactly those two components. -/
theorem goSplit_write (nsp nm : String) (h1 : sepChar ∉ nsp.data)
    (h2 : sepChar ∉ nm.data) :
    goSplit (nsp ++ sepStr ++ nm) sepChar = [nsp, nm] := by
  have hdata : (nsp ++ sepStr ++ nm).data = nsp.data ++ sepChar :: nm.data := by
    rw [String.data_append', String.data_append',
      show sepStr.data = [sepChar] from rfl, List.append_assoc]
    simp
  unfold goSplit
  rw [hdata, goSplitChars_append sepChar _ _ h1, goSplitChars_no_sep sepChar _ h2]
  simp [String.mk_data']

/-- A string splits into exactly two segments precisely when it is
`ns</>name` for separator-free `ns` and `name`. -/
theorem goSplit_two_iff (s : String) :
    (goSplit s sepChar).length = 2 ↔
      ∃ nsp nm : String, sepChar ∉ nsp.data ∧ sepChar ∉ nm.data ∧
        s = nsp ++ sepStr ++ nm := by
  constructor
  · intro h
    unfold goSplit at h
    rw [List.length_map] at h
    cases hs : goSplitChars sepChar s.data with
    | nil => rw [hs] at h; simp at h
    | cons x t =>
      cases t with
      | nil => rw [hs] at h; simp at h
      | cons y t2 =>
        cases t2 with
        | cons z t3 => rw [hs] at h; simp at h
        | nil =>
          have hjoin : x ++ sepChar :: y = s.data := by
            have := joinSepChars_goSplitChars sepChar s.data
            rw [hs] at this
            simpa [joinSepChars] using this
          have hx : sepChar ∉ x :=
            goSplitChars_parts_no_sep sepChar s.data x
              (hs ▸ List.mem_cons_self x [y])
          have hy : sepChar ∉ y :=
            goSplitChars_parts_no_sep sepChar s.data y
              (hs ▸ List.mem_cons_of_mem x (List.mem_cons_self y []))
          refine ⟨String.mk x, String.mk y, hx, hy, ?_⟩
          refine String.eq_of_data_eq _ _ ?_
          rw [String.data_append', String.data_append',
            show sepStr.data = [sepChar] from rfl, List.append_assoc]
          simpa using hjoin.symm
  · rintro ⟨nsp, nm, h1, h2, rfl⟩
    rw [goSplit_write nsp nm h1 h2]
    rfl

/-! ### Effect-count lemmas -/

theorem countPRCreates_append (l1 l2 : List Effect) :
    countPRCreates (l1 ++ l2) = countPRCreates l1 + countPRCreates l2 := by
  simp [countPRCreates, List.filter_append]

theorem countBindingCreates_append (l1 l2 : List Effect) :
    countBindingCreates (l1 ++ l2) =
      countBindingCreates l1 + countBindingCreates l2 := by
  simp [countBindingCreates, List.filter_append]

theorem markInvalidAndPatch_effects (c : Client) (r : Release)
    (reason : ReleaseReason) (msg : String) :
    (markInvalidAndPatch c r reason msg).effects = [] ∨
      ∃ r2, (markInvalidAndPatch c r reason msg).effects =
        [Effect.statusPatch r2] := by
  cases hp : c.statusPatchRes (markInvalid r reason msg) with
  | some e => left; simp [markInvalidAndPatch, hp]
  | none => right; exact ⟨markInvalid r reason msg, by simp [markInvalidAndPatch, hp]⟩

theorem countPRCreates_markInvalidAndPatch (c : Client) (r : Release)
    (reason : ReleaseReason) (msg : String) :
    countPRCreates (markInvalidAndPatch c r reason msg).effects = 0 := by
  rcases markInvalidAndPatch_effects c r reason msg with h | ⟨r2, h⟩ <;>
    simp [h, countPRCreates, Effect.isCreatePipelineRun]

theorem countBindingCreates_markInvalidAndPatch (c : Client) (r : Release)
    (reason : ReleaseReason) (msg : String) :
    countBindingCreates (markInvalidAndPatch c r reason msg).effects = 0 := by
  rcases markInvalidAndPatch_effects c r reason msg with h | ⟨r2, h⟩ <;>
    simp [h, countBindingCreates, Effect.isCreateBinding]

theorem registerRSD_effects (c : Client) (r : Release)
    (pr? : Option PipelineRun) (strategy? : Option ReleaseStrategy) :
    (registerReleaseStatusData c r pr? strategy?).2.2 = [] ∨
      ∃ r2, (registerReleaseStatusData c r pr? strategy?).2.2 =
        [Effect.statusPatch r2] := by
  cases pr? with
  | none => cases strategy? <;> simp [registerReleaseStatusData]
  | some pr =>
    cases strategy? with
    | none => simp [registerReleaseStatusData]
    | some st =>
      cases hp : c.statusPatchRes (markRunning
          { r with status :=
            { r.status with
              releasePipelineRun := pr.ns ++ sepStr ++ pr.name
              releaseStrategy := st.ns ++ sepStr ++ st.name
              target := pr.ns } }) with
      | some e => left; simp [registerReleaseStatusData, hp]
      | none =>
        right
        refine ⟨markRunning
          { r with status :=
            { r.status with
              releasePipelineRun := pr.ns ++ sepStr ++ pr.name
              releaseStrategy := st.ns ++ sepStr ++ st.name
              target := pr.ns } }, ?_⟩
        simp [registerReleaseStatusData, hp]

theorem countPRCreates_registerRSD (c : Client) (r : Release)
    (pr? : Option PipelineRun) (strategy? : Option ReleaseStrategy) :
    countPRCreates (registerReleaseStatusData c r pr? strategy?).2.2 = 0 := by
  rcases registerRSD_effects c r pr? strategy? with h | ⟨r2, h⟩ <;>
    simp [h, countPRCreates, Effect.isCreatePipelineRun]

/-- One pass of the pipeline-trigger tail creates at most one execution. -/
theorem countPRCreates_ensureRest_le_one (c : Client) (r : Release)
    (pr? : Option PipelineRun) :
    countPRCreates (ensurePipelineRunRest c r pr?).effects ≤ 1 := by
  cases pr? with
  | some pr =>
    rcases hr : registerReleaseStatusData c r (some pr) none with ⟨err?, r2, eff2⟩
    have h0 : countPRCreates eff2 = 0 := by
      have := countPRCreates_registerRSD c r (some pr) none
      rw [hr] at this
      exact this
    cases err? <;> simp [ensurePipelineRunRest, hr, h0]
  | none =>
    cases h1 : getActiveReleasePlanAdmission c r with
    | error e =>
      simp [ensurePipelineRunRest, h1, countPRCreates_markInvalidAndPatch]
    | ok rpa =>
      cases h2 : c.getReleaseStrategy rpa.ns rpa.releaseStrategy with
      | error e =>
        simp [ensurePipelineRunRest, h1, h2, countPRCreates_markInvalidAndPatch]
      | ok strategy =>
        cases h3 : c.getEnterpriseContractPolicy strategy.ns strategy.policy with
        | error e =>
          simp [ensurePipelineRunRest, h1, h2, h3,
            countPRCreates_markInvalidAndPatch]
        | ok policy =>
          cases h4 : c.getSnapshot r.ns r.spec.snapshot with
          | error e =>
            simp [ensurePipelineRunRest, h1, h2, h3, h4,
              countPRCreates_markInvalidAndPatch]
          | ok snapshot =>
            cases h5 : c.createPipelineRunRes (newReleasePipelineRun r strategy) with
            | some e =>
              simp [ensurePipelineRunRest, h1, h2, h3, h4,
                createReleasePipelineRun, h5, countPRCreates]
            | none =>
              rcases hr : registerReleaseStatusData c r
                  (some (newReleasePipelineRun r strategy)) (some strategy) with
                ⟨err?, r2, eff2⟩
              have h0 : countPRCreates eff2 = 0 := by
                have := countPRCreates_registerRSD c r
                  (some (newReleasePipelineRun r strategy)) (some strategy)
                rw [hr] at this
                exact this
              have hcons : ∀ l : List Effect,
                  countPRCreates (Effect.createPipelineRun
                    (newReleasePipelineRun r strategy) :: l) =
                    countPRCreates l + 1 := by
                intro l
                simp [countPRCreates, List.filter, Effect.isCreatePipelineRun]
              cases err? with
              | some e =>
                have heff : (ensurePipelineRunRest c r none).effects =
                    Effect.createPipelineRun (newReleasePipelineRun r strategy)
                      :: eff2 := by
                  simp [ensurePipelineRunRest, h1, h2, h3, h4,
                    createReleasePipelineRun, h5, hr]
                rw [heff, hcons, h0]
              | none =>
                have heff : (ensurePipelineRunRest c r none).effects =
                    Effect.createPipelineRun (newReleasePipelineRun r strategy)
                      :: eff2 := by
                  simp [ensurePipelineRunRest, h1, h2, h3, h4,
                    createReleasePipelineRun, h5, hr]
                rw [heff, hcons, h0]

theorem countPRCreates_ensure_le_one (c : Client) (r : Release) :
    countPRCreates (EnsureReleasePipelineRunExists c r).effects ≤ 1 := by
  cases hg : getReleasePipelineRun c r with
  | error e =>
    by_cases hn : e.isNotFound
    · simpa [EnsureReleasePipelineRunExists, hg, hn] using
        countPRCreates_ensureRest_le_one c r none
    · simp [EnsureReleasePipelineRunExists, hg, hn, countPRCreates]
  | ok pr? =>
    simpa [EnsureReleasePipelineRunExists, hg] using
      countPRCreates_ensureRest_le_one c r pr?

/-- A successful snapshot sync contributes exactly the sync effect. -/
theorem syncResources_ok (c : Client) (r : Release) (eff : List Effect)
    (h : syncResources c r = .ok eff) :
    ∃ snap tns, eff = [Effect.syncSnapshot snap tns] := by
  unfold syncResources at h
  cases h1 : getActiveReleasePlanAdmission c r with
  | error e => simp [h1] at h
  | ok rpa =>
    simp only [h1] at h
    cases h2 : c.getSnapshot r.ns r.spec.snapshot with
    | error e => simp [h2] at h
    | ok snap =>
      simp only [h2] at h
      cases hs : c.syncSnapshotRes snap rpa.ns with
      | some e => simp [hs] at h
      | none =>
        simp only [hs, Except.ok.injEq] at h
        exact ⟨snap, rpa.ns, h.symm⟩

/-- A successful binding creation contributes exactly the creation effect. -/
theorem createSEB_ok (c : Client) (r : Release) (env : Environment)
    (rpa : ReleasePlanAdmission) (b : SnapshotEnvironmentBinding)
    (eff : List Effect)
    (h : createSnapshotEnvironmentBinding c r env rpa = .ok (b, eff)) :
    eff = [Effect.createBinding b] := by
  unfold createSnapshotEnvironmentBinding at h
  cases h1 : getSnapshotEnvironmentResources c r rpa with
  | error e => rw [h1] at h; exact absurd h (by simp)
  | ok res =>
    obtain ⟨app, comps, snap⟩ := res
    rw [h1] at h
    simp only at h
    cases hc : c.createBindingRes (newSnapshotEnvironmentBinding comps snap env) with
    | some e => rw [hc] at h; exact absurd h (by simp)
    | none =>
      rw [hc] at h
      simp only [Except.ok.injEq, Prod.mk.injEq] at h
      rw [← h.1, ← h.2]

/-- One pass of the binding-trigger tail creates at most one binding. -/
theorem countBindingCreates_lookupRest_le_one (c : Client) (r : Release)
    (env : Environment) (rpa : ReleasePlanAdmission)
    (b? : Option SnapshotEnvironmentBinding) :
    countBindingCreates (bindingLookupRest c r env rpa b?).effects ≤ 1 := by
  cases b? with
  | some b => simp [bindingLookupRest, countBindingCreates]
  | none =>
    cases hsync : syncResources c r with
    | error e => simp [bindingLookupRest, hsync, countBindingCreates]
    | ok effSync =>
      obtain ⟨snap, tns, rfl⟩ := syncResources_ok c r effSync hsync
      cases hcr : createSnapshotEnvironmentBinding c r env rpa with
      | error e =>
        simp [bindingLookupRest, hsync, hcr, countBindingCreates,
          Effect.isCreateBinding]
      | ok bc =>
        obtain ⟨b, effC⟩ := bc
        have heffC := createSEB_ok c r env rpa b effC hcr
        subst heffC
        cases hp : c.statusPatchRes { r with status :=
            { r.status with
              snapshotEnvironmentBinding := b.ns ++ sepStr ++ b.name } } <;>
          simp [bindingLookupRest, hsync, hcr, hp, countBindingCreates,
            Effect.isCreateBinding, List.filter]

/-- One pass of the binding-trigger operation creates at most one binding. -/
theorem countBindingCreates_ensure_le_one (c : Client) (r : Release) :
    countBindingCreates (EnsureSnapshotEnvironmentBindingExists c r).effects ≤ 1 := by
  by_cases hgate : (!r.hasSucceeded || r.hasBeenDeployed) = true
  · simp [EnsureSnapshotEnvironmentBindingExists, hgate, countBindingCreates]
  · cases h1 : getActiveReleasePlanAdmission c r with
    | error e =>
      simp [EnsureSnapshotEnvironmentBindingExists, hgate, h1, countBindingCreates]
    | ok rpa =>
      by_cases henv : rpa.environment = ""
      · simp [EnsureSnapshotEnvironmentBindingExists, hgate, h1, henv,
          countBindingCreates]
      · cases h2 : getEnvironment c rpa with
        | error e =>
          simp [EnsureSnapshotEnvironmentBindingExists, hgate, h1, henv, h2,
            countBindingCreates]
        | ok env =>
          cases h3 : getSnapshotEnvironmentBinding c env rpa with
          | error e =>
            by_cases hn : e.isNotFound
            · simpa [EnsureSnapshotEnvironmentBindingExists, hgate, h1, henv,
                h2, h3, hn] using
                countBindingCreates_lookupRest_le_one c r env rpa none
            · simp [EnsureSnapshotEnvironmentBindingExists, hgate, h1, henv,
                h2, h3, hn, countBindingCreates]
          | ok b? =>
            simpa [EnsureSnapshotEnvironmentBindingExists, hgate, h1, henv,
              h2, h3] using
              countBindingCreates_lookupRest_le_one c r env rpa b?

/-! ### Idempotency lemmas -/

theorem head?_take_one {α : Type} (l : List α) : (l.take 1).head? = l.head? := by
  cases l <;> simp

/-- The modelled builder stamps exactly the labels the lookup selects on. -/
theorem newPR_matches (r : Release) (strategy : ReleaseStrategy) :
    prMatchesLabels (newReleasePipelineRun r strategy) r.name r.ns = true := by
  simp [prMatchesLabels, newReleasePipelineRun, List.lookup, releaseNameLabel,
    releaseNamespaceLabel]

/-- Honest execution lookup: the head of the label-filtered executions. -/
theorem getReleasePipelineRun_honest (cl : Cluster) (r : Release) :
    getReleasePipelineRun (honestClient cl) r =
      .ok (cl.pipelineRuns.filter fun p => prMatchesLabels p r.name r.ns).head? := by
  simp [getReleasePipelineRun, honestClient, head?_take_one]

/-- A matching execution in the store means the pipeline-trigger operation
creates nothing. -/
theorem pr_exists_no_create (cl : Cluster) (r : Release)
    (h : ∃ p ∈ cl.pipelineRuns, prMatchesLabels p r.name r.ns = true) :
    countPRCreates (EnsureReleasePipelineRunExists (honestClient cl) r).effects
      = 0 := by
  obtain ⟨p, hmem, hmatch⟩ := h
  cases hf : cl.pipelineRuns.filter (fun p => prMatchesLabels p r.name r.ns) with
  | nil =>
    exact absurd hmatch (by simpa using List.filter_eq_nil_iff.mp hf p hmem)
  | cons p0 ps =>
    have hlook : getReleasePipelineRun (honestClient cl) r = .ok (some p0) := by
      rw [getReleasePipelineRun_honest, hf]
      rfl
    simp only [EnsureReleasePipelineRunExists, hlook]
    simp [ensurePipelineRunRest, registerReleaseStatusData, countPRCreates]

/-- A binding matching the resolved admission's (environment, application)
means the binding-trigger operation creates nothing. -/
theorem binding_exists_no_create (cl : Cluster) (r : Release)
    (rpa : ReleasePlanAdmission)
    (hrpa : getActiveReleasePlanAdmission (honestClient cl) r = .ok rpa)
    (h : ∃ b ∈ cl.bindings, b.ns = rpa.ns ∧ b.environment = rpa.environment ∧
      b.application = rpa.application) :
    countBindingCreates
      (EnsureSnapshotEnvironmentBindingExists (honestClient cl) r).effects = 0 := by
  by_cases hgate : (!r.hasSucceeded || r.hasBeenDeployed) = true
  · simp only [EnsureSnapshotEnvironmentBindingExists]
    rw [if_pos hgate]
    simp [countBindingCreates]
  · by_cases henv : rpa.environment = ""
    · simp only [EnsureSnapshotEnvironmentBindingExists]
      rw [if_neg hgate]
      simp only [hrpa]
      rw [if_pos henv]
      simp [countBindingCreates]
    · cases h2 : getEnvironment (honestClient cl) rpa with
      | error e =>
        simp only [EnsureSnapshotEnvironmentBindingExists]
        rw [if_neg hgate]
        simp only [hrpa]
        rw [if_neg henv]
        simp only [h2]
        simp [countBindingCreates]
      | ok env =>
        have henvok : env.ns = rpa.ns ∧ env.name = rpa.environment :=
          honestGet_ok (·.ns) (·.name) cl.environments rpa.ns rpa.environment env
            (by simpa [getEnvironment, honestClient] using h2)
        obtain ⟨b, hbmem, hb1, hb2, hb3⟩ := h
        have hfind : ((cl.bindings.filter fun x =>
            x.ns = env.ns && x.environment = env.name).find? fun x =>
            x.application = rpa.application).isSome := by
          apply List.find?_isSome.mpr
          refine ⟨b, List.mem_filter.mpr ⟨hbmem, ?_⟩, by simp [hb3]⟩
          simp [hb1, hb2, henvok.1, henvok.2]
        cases hfd : (cl.bindings.filter fun x =>
            x.ns = env.ns && x.environment = env.name).find? (fun x =>
            x.application = rpa.application) with
        | none => rw [hfd] at hfind; simp at hfind
        | some bf =>
          have hseb : getSnapshotEnvironmentBinding (honestClient cl) env rpa
              = .ok (some bf) := by
            simp [getSnapshotEnvironmentBinding, honestClient, hfd]
          simp only [EnsureSnapshotEnvironmentBindingExists]
          rw [if_neg hgate]
          simp only [hrpa]
          rw [if_neg henv]
          simp only [h2, hseb]
          simp [bindingLookupRest, countBindingCreates]

/-- Status patches and sync effects leave the stored objects unchanged. -/
theorem applyEffects_statusPatch (cl : Cluster) (r2 : Release) :
    applyEffects cl [Effect.statusPatch r2] = cl := rfl

/-- Two consecutive passes of the pipeline-trigger operation against a store
that only the first pass's own successful mutations may have changed create
at most one execution in total. -/
theorem ensurePR_twice_le_one (cl : Cluster) (r : Release) :
    countPRCreates (EnsureReleasePipelineRunExists (honestClient cl) r).effects
      + countPRCreates (EnsureReleasePipelineRunExists
          (honestClient (applyEffects cl
            (EnsureReleasePipelineRunExists (honestClient cl) r).effects))
          (EnsureReleasePipelineRunExists (honestClient cl) r).release).effects
      ≤ 1 := by
  cases hf : cl.pipelineRuns.filter (fun p => prMatchesLabels p r.name r.ns) with
  | cons p0 ps =>
    have hlook : getReleasePipelineRun (honestClient cl) r = .ok (some p0) := by
      rw [getReleasePipelineRun_honest, hf]
      rfl
    have ho1 : EnsureReleasePipelineRunExists (honestClient cl) r =
        ⟨.continueProcessing, r, []⟩ := by
      simp only [EnsureReleasePipelineRunExists, hlook]
      simp [ensurePipelineRunRest, registerReleaseStatusData]
    rw [ho1]
    simpa [countPRCreates, applyEffects] using
      countPRCreates_ensure_le_one (honestClient cl) r
  | nil =>
    have hlook : getReleasePipelineRun (honestClient cl) r = .ok none := by
      rw [getReleasePipelineRun_honest, hf]
      rfl
    have hE : EnsureReleasePipelineRunExists (honestClient cl) r =
        ensurePipelineRunRest (honestClient cl) r none := by
      simp only [EnsureReleasePipelineRunExists, hlook]
    rw [hE]
    cases h1 : getActiveReleasePlanAdmission (honestClient cl) r with
    | error e =>
      have ho1 : ensurePipelineRunRest (honestClient cl) r none =
          ⟨.stopProcessing,
            markInvalid r .releasePlanValidationError e.errString,
            [.statusPatch (markInvalid r .releasePlanValidationError e.errString)]⟩ := by
        simp only [ensurePipelineRunRest, h1]
        simp [markInvalidAndPatch, honestClient]
      rw [ho1]
      simpa [countPRCreates, Effect.isCreatePipelineRun, applyEffects,
        applyEffect] using
        countPRCreates_ensure_le_one (honestClient cl)
          (markInvalid r .releasePlanValidationError e.errString)
    | ok rpa =>
      cases h2 : (honestClient cl).getReleaseStrategy rpa.ns rpa.releaseStrategy with
      | error e =>
        have ho1 : ensurePipelineRunRest (honestClient cl) r none =
            ⟨.stopProcessing, markInvalid r .validationError e.errString,
              [.statusPatch (markInvalid r .validationError e.errString)]⟩ := by
          simp only [ensurePipelineRunRest, h1, h2]
          simp [markInvalidAndPatch, honestClient]
        rw [ho1]
        simpa [countPRCreates, Effect.isCreatePipelineRun, applyEffects,
          applyEffect] using
          countPRCreates_ensure_le_one (honestClient cl)
            (markInvalid r .validationError e.errString)
      | ok strategy =>
        cases h3 : (honestClient cl).getEnterpriseContractPolicy strategy.ns
            strategy.policy with
        | error e =>
          have ho1 : ensurePipelineRunRest (honestClient cl) r none =
              ⟨.stopProcessing, markInvalid r .validationError e.errString,
                [.statusPatch (markInvalid r .validationError e.errString)]⟩ := by
            simp only [ensurePipelineRunRest, h1, h2, h3]
            simp [markInvalidAndPatch, honestClient]
          rw [ho1]
          simpa [countPRCreates, Effect.isCreatePipelineRun, applyEffects,
            applyEffect] using
            countPRCreates_ensure_le_one (honestClient cl)
              (markInvalid r .validationError e.errString)
        | ok policy =>
          cases h4 : (honestClient cl).getSnapshot r.ns r.spec.snapshot with
          | error e =>
            have ho1 : ensurePipelineRunRest (honestClient cl) r none =
                ⟨.stopProcessing, markInvalid r .validationError e.errString,
                  [.statusPatch (markInvalid r .validationError e.errString)]⟩ := by
              simp only [ensurePipelineRunRest, h1, h2, h3, h4]
              simp [markInvalidAndPatch, honestClient]
            rw [ho1]
            simpa [countPRCreates, Effect.isCreatePipelineRun, applyEffects,
              applyEffect] using
              countPRCreates_ensure_le_one (honestClient cl)
                (markInvalid r .validationError e.errString)
          | ok snapshot =>
            have ho1 : ensurePipelineRunRest (honestClient cl) r none =
                ⟨.continueProcessing,
                  markRunning { r with status :=
                    { r.status with
                      releasePipelineRun :=
                        (newReleasePipelineRun r strategy).ns ++ sepStr ++
                          (newReleasePipelineRun r strategy).name
                      releaseStrategy := strategy.ns ++ sepStr ++ strategy.name
                      target := (newReleasePipelineRun r strategy).ns } },
                  [.createPipelineRun (newReleasePipelineRun r strategy),
                   .statusPatch (markRunning { r with status :=
                    { r.status with
                      releasePipelineRun :=
                        (newReleasePipelineRun r strategy).ns ++ sepStr ++
                          (newReleasePipelineRun r strategy).name
                      releaseStrategy := strategy.ns ++ sepStr ++ strategy.name
                      target := (newReleasePipelineRun r strategy).ns } })]⟩ := by
              simp only [ensurePipelineRunRest, h1, h2, h3, h4]
              simp [createReleasePipelineRun, registerReleaseStatusData,
                honestClient]
            rw [ho1]
            have happly : applyEffects cl
                [Effect.createPipelineRun (newReleasePipelineRun r strategy),
                 Effect.statusPatch (markRunning { r with status :=
                    { r.status with
                      releasePipelineRun :=
                        (newReleasePipelineRun r strategy).ns ++ sepStr ++
                          (newReleasePipelineRun r strategy).name
                      releaseStrategy := strategy.ns ++ sepStr ++ strategy.name
                      target := (newReleasePipelineRun r strategy).ns } })] =
                { cl with pipelineRuns :=
                    cl.pipelineRuns ++ [newReleasePipelineRun r strategy] } := rfl
            rw [happly]
            have hcount2 : countPRCreates (EnsureReleasePipelineRunExists
                (honestClient { cl with pipelineRuns :=
                  cl.pipelineRuns ++ [newReleasePipelineRun r strategy] })
                (markRunning { r with status :=
                  { r.status with
                    releasePipelineRun :=
                      (newReleasePipelineRun r strategy).ns ++ sepStr ++
                        (newReleasePipelineRun r strategy).name
                    releaseStrategy := strategy.ns ++ sepStr ++ strategy.name
                    target := (newReleasePipelineRun r strategy).ns } })).effects
                = 0 := by
              apply pr_exists_no_create
              refine ⟨newReleasePipelineRun r strategy, List.mem_append_right _
                (List.mem_cons_self _ _), ?_⟩
              exact newPR_matches r strategy
            rw [hcount2]
            simp [countPRCreates, Effect.isCreatePipelineRun, List.filter]

/-- Admission resolution ignores the bindings in the store and the Release's
status, so it is unchanged by a binding-creating pass. -/
theorem getActive_bindings_irrel (cl : Cluster)
    (bs : List SnapshotEnvironmentBinding) (r r2 : Release)
    (hns : r2.ns = r.ns) (hsp : r2.spec = r.spec) :
    getActiveReleasePlanAdmission (honestClient { cl with bindings := bs }) r2 =
      getActiveReleasePlanAdmission (honestClient cl) r := by
  simp [getActiveReleasePlanAdmission, getReleasePlan, honestClient, hns, hsp]

theorem honestClient_listComponents (cl : Cluster) (nsp appn : String) :
    (honestClient cl).listComponents nsp appn =
      .ok (cl.components.filter fun x => x.ns = nsp && x.application = appn) := rfl

theorem honestClient_createBindingRes (cl : Cluster)
    (b : SnapshotEnvironmentBinding) :
    (honestClient cl).createBindingRes b = none := rfl

theorem honestClient_statusPatchRes (cl : Cluster) (r : Release) :
    (honestClient cl).statusPatchRes r = none := rfl

theorem honestClient_syncSnapshotRes (cl : Cluster) (s : Snapshot) (tns : String) :
    (honestClient cl).syncSnapshotRes s tns = none := rfl

/-- Two consecutive passes of the binding-trigger operation against a store
that only the first pass's own successful mutations may have changed create
at most one binding in total, provided the Release's snapshot belongs to the
resolved admission's application (the invariant relating plan, admission and
snapshot). -/
theorem ensureBinding_twice_le_one (cl : Cluster) (r : Release)
    (halign : ∀ (rpa : ReleasePlanAdmission) (snap : Snapshot),
      getActiveReleasePlanAdmission (honestClient cl) r = .ok rpa →
      (honestClient cl).getSnapshot r.ns r.spec.snapshot = .ok snap →
      snap.application = rpa.application) :
    countBindingCreates
        (EnsureSnapshotEnvironmentBindingExists (honestClient cl) r).effects
      + countBindingCreates (EnsureSnapshotEnvironmentBindingExists
          (honestClient (applyEffects cl
            (EnsureSnapshotEnvironmentBindingExists (honestClient cl) r).effects))
          (EnsureSnapshotEnvironmentBindingExists (honestClient cl) r).release).effects
      ≤ 1 := by
  by_cases hgate : (!r.hasSucceeded || r.hasBeenDeployed) = true
  · have hEq : EnsureSnapshotEnvironmentBindingExists (honestClient cl) r =
        ⟨.continueProcessing, r, []⟩ := by
      simp only [EnsureSnapshotEnvironmentBindingExists]
      rw [if_pos hgate]
    rw [hEq]
    simpa [countBindingCreates, applyEffects] using
      countBindingCreates_ensure_le_one (honestClient cl) r
  · cases h1 : getActiveReleasePlanAdmission (honestClient cl) r with
    | error e =>
      have hEq : EnsureSnapshotEnvironmentBindingExists (honestClient cl) r =
          ⟨.requeueWithError e, r, []⟩ := by
        simp only [EnsureSnapshotEnvironmentBindingExists]
        rw [if_neg hgate]
        simp only [h1]
      rw [hEq]
      simpa [countBindingCreates, applyEffects] using
        countBindingCreates_ensure_le_one (honestClient cl) r
    | ok rpa =>
      by_cases henv : rpa.environment = ""
      · have hEq : EnsureSnapshotEnvironmentBindingExists (honestClient cl) r =
            ⟨.continueProcessing, r, []⟩ := by
          simp only [EnsureSnapshotEnvironmentBindingExists]
          rw [if_neg hgate]
          simp only [h1]
          rw [if_pos henv]
        rw [hEq]
        simpa [countBindingCreates, applyEffects] using
          countBindingCreates_ensure_le_one (honestClient cl) r
      · cases h2 : getEnvironment (honestClient cl) rpa with
        | error e =>
          have hEq : EnsureSnapshotEnvironmentBindingExists (honestClient cl) r =
              ⟨.requeueWithError e, r, []⟩ := by
            simp only [EnsureSnapshotEnvironmentBindingExists]
            rw [if_neg hgate]
            simp only [h1]
            rw [if_neg henv]
            simp only [h2]
          rw [hEq]
          simpa [countBindingCreates, applyEffects] using
            countBindingCreates_ensure_le_one (honestClient cl) r
        | ok env =>
          cases hfd : (cl.bindings.filter fun x =>
              x.ns = env.ns && x.environment = env.name).find? (fun x =>
              x.application = rpa.application) with
          | some bf =>
            have hseb : getSnapshotEnvironmentBinding (honestClient cl) env rpa
                = .ok (some bf) := by
              simp [getSnapshotEnvironmentBinding, honestClient, hfd]
            have hEq : EnsureSnapshotEnvironmentBindingExists (honestClient cl) r =
                ⟨.continueProcessing, r, []⟩ := by
              simp only [EnsureSnapshotEnvironmentBindingExists]
              rw [if_neg hgate]
              simp only [h1]
              rw [if_neg henv]
              simp only [h2, hseb]
              simp [bindingLookupRest]
            rw [hEq]
            simpa [countBindingCreates, applyEffects] using
              countBindingCreates_ensure_le_one (honestClient cl) r
          | none =>
            have hseb : getSnapshotEnvironmentBinding (honestClient cl) env rpa
                = .ok none := by
              simp [getSnapshotEnvironmentBinding, honestClient, hfd]
            have hEns : EnsureSnapshotEnvironmentBindingExists (honestClient cl) r
                = bindingLookupRest (honestClient cl) r env rpa none := by
              simp only [EnsureSnapshotEnvironmentBindingExists]
              rw [if_neg hgate]
              simp only [h1]
              rw [if_neg henv]
              simp only [h2, hseb]
            rw [hEns]
            cases h4 : (honestClient cl).getSnapshot r.ns r.spec.snapshot with
            | error e =>
              have hsync : syncResources (honestClient cl) r = .error e := by
                simp only [syncResources, h1, h4]
              have hEq : bindingLookupRest (honestClient cl) r env rpa none =
                  ⟨.requeueWithError e, r, []⟩ := by
                simp only [bindingLookupRest, hsync]
              rw [hEq]
              simpa [countBindingCreates, applyEffects] using
                countBindingCreates_ensure_le_one (honestClient cl) r
            | ok snap =>
              have hsync : syncResources (honestClient cl) r =
                  .ok [.syncSnapshot snap rpa.ns] := by
                simp only [syncResources, h1, h4, honestClient_syncSnapshotRes]
              cases h5 : (honestClient cl).getApplication rpa.ns rpa.application with
              | error e =>
                have hres : getSnapshotEnvironmentResources (honestClient cl) r rpa
                    = .error e := by
                  simp only [getSnapshotEnvironmentResources, h5]
                have hcr : createSnapshotEnvironmentBinding (honestClient cl) r env rpa
                    = .error e := by
                  simp only [createSnapshotEnvironmentBinding, hres]
                have hEq : bindingLookupRest (honestClient cl) r env rpa none =
                    ⟨.requeueWithError e, r, [.syncSnapshot snap rpa.ns]⟩ := by
                  simp only [bindingLookupRest, hsync, hcr]
                rw [hEq]
                simpa [countBindingCreates, Effect.isCreateBinding, applyEffects,
                  applyEffect, List.filter] using
                  countBindingCreates_ensure_le_one (honestClient cl) r
              | ok app =>
                set comps := cl.components.filter
                  (fun x => x.ns = app.ns && x.application = app.name) with hcomps
                set b := newSnapshotEnvironmentBinding comps snap env with hb
                set r2 := { r with status := { r.status with
                    snapshotEnvironmentBinding := b.ns ++ sepStr ++ b.name } }
                  with hr2
                set cl2 := { cl with bindings := cl.bindings ++ [b] } with hcl2
                have hres : getSnapshotEnvironmentResources (honestClient cl) r rpa
                    = .ok (app, comps, snap) := by
                  simp only [getSnapshotEnvironmentResources, h5,
                    honestClient_listComponents, h4, hcomps]
                have hcr : createSnapshotEnvironmentBinding (honestClient cl) r env rpa
                    = .ok (b, [.createBinding b]) := by
                  simp only [createSnapshotEnvironmentBinding, hres,
                    honestClient_createBindingRes, hb]
                have hEq : bindingLookupRest (honestClient cl) r env rpa none =
                    ⟨.continueProcessing, r2,
                      [.syncSnapshot snap rpa.ns, .createBinding b,
                       .statusPatch r2]⟩ := by
                  simp only [bindingLookupRest, hsync, hcr,
                    honestClient_statusPatchRes, hr2]
                  rfl
                rw [hEq]
                have happly : applyEffects cl
                    [Effect.syncSnapshot snap rpa.ns, Effect.createBinding b,
                     Effect.statusPatch r2] = cl2 := rfl
                rw [happly]
                have henvok : env.ns = rpa.ns ∧ env.name = rpa.environment :=
                  honestGet_ok (·.ns) (·.name) cl.environments rpa.ns
                    rpa.environment env
                    (by simpa [getEnvironment, honestClient] using h2)
                have hrpa2 : getActiveReleasePlanAdmission (honestClient cl2) r2
                    = .ok rpa := by
                  rw [hcl2, getActive_bindings_irrel cl (cl.bindings ++ [b]) r r2
                    (by rw [hr2]) (by rw [hr2])]
                  exact h1
                have hexists : ∃ x ∈ cl2.bindings, x.ns = rpa.ns ∧
                    x.environment = rpa.environment ∧
                    x.application = rpa.application := by
                  refine ⟨b, ?_, ?_, ?_, ?_⟩
                  · simp [hcl2]
                  · simpa [hb, newSnapshotEnvironmentBinding] using henvok.1
                  · simpa [hb, newSnapshotEnvironmentBinding] using henvok.2
                  · simpa [hb, newSnapshotEnvironmentBinding] using
                      halign rpa snap h1 h4
                have hcount2 := binding_exists_no_create cl2 r2 rpa hrpa2 hexists
                show countBindingCreates [Effect.syncSnapshot snap rpa.ns,
                    Effect.createBinding b, Effect.statusPatch r2]
                  + countBindingCreates (EnsureSnapshotEnvironmentBindingExists
                      (honestClient cl2) r2).effects ≤ 1
                rw [hcount2]
                simp [countBindingCreates, Effect.isCreateBinding, List.filter]

/-! ### Witness fixtures: a small concrete cluster -/












/-! ### The claims -/

/-- C1: Idempotent creation.  (1) In every cluster state already containing a
PipelineRun that carries the Release's (release-name, release-namespace)
labels, `EnsureReleasePipelineRunExists` creates no new PipelineRun.  (2) In
every state already containing a SnapshotEnvironmentBinding matching the
resolved admission's (environment, application), `EnsureSnapshotEnvironmentBindingExists`
creates no new binding.  Hence (3) two consecutive invocations of the
pipeline trigger against a store changed only by the first pass's own
effects create at most one execution, and (4) likewise at most one binding
for the binding trigger, under the system invariant that the Release's
snapshot belongs to the resolved admission's application. -/
theorem C1_idempotent_creation :
    (∀ (cl : Cluster) (r : Release),
      (∃ p ∈ cl.pipelineRuns, prMatchesLabels p r.name r.ns = true) →
      countPRCreates
        (EnsureReleasePipelineRunExists (honestClient cl) r).effects = 0)
    ∧ (∀ (cl : Cluster) (r : Release) (rpa : ReleasePlanAdmission),
      getActiveReleasePlanAdmission (honestClient cl) r = .ok rpa →
      (∃ b ∈ cl.bindings, b.ns = rpa.ns ∧ b.environment = rpa.environment ∧
        b.application = rpa.application) →
      countBindingCreates
        (EnsureSnapshotEnvironmentBindingExists (honestClient cl) r).effects = 0)
    ∧ (∀ (cl : Cluster) (r : Release),
      countPRCreates
        ((EnsureReleasePipelineRunExists (honestClient cl) r).effects
          ++ (EnsureReleasePipelineRunExists
              (honestClient (applyEffects cl
                (EnsureReleasePipelineRunExists (honestClient cl) r).effects))
              (EnsureReleasePipelineRunExists (honestClient cl) r).release).effects)
        ≤ 1)
    ∧ (∀ (cl : Cluster) (r : Release),
      (∀ (rpa : ReleasePlanAdmission) (snap : Snapshot),
        getActiveReleasePlanAdmission (honestClient cl) r = .ok rpa →
        (honestClient cl).getSnapshot r.ns r.spec.snapshot = .ok snap →
        snap.application = rpa.application) →
      countBindingCreates
        ((EnsureSnapshotEnvironmentBindingExists (honestClient cl) r).effects
          ++ (EnsureSnapshotEnvironmentBindingExists
              (honestClient (applyEffects cl
                (EnsureSnapshotEnvironmentBindingExists (honestClient cl) r).effects))
              (EnsureSnapshotEnvironmentBindingExists (honestClient cl) r).release).effects)
        ≤ 1) := by
  refine ⟨pr_exists_no_create, binding_exists_no_create, ?_, ?_⟩
  · intro cl r
    rw [countPRCreates_append]
    exact ensurePR_twice_le_one cl r
  · intro cl r halign
    rw [countBindingCreates_append]
    exact ensureBinding_twice_le_one cl r halign

/-- Witness for C1: the concrete cluster already holds a labelled execution
and a matching binding; both triggers create nothing, and the double
invocation of the binding trigger stays at one binding. -/
theorem C1_idempotent_creation_witness :
    countPRCreates
      (EnsureReleasePipelineRunExists (honestClient wCluster) wRelease).effects = 0
    ∧ countBindingCreates
      (EnsureSnapshotEnvironmentBindingExists (honestClient wCluster) wRelease).effects = 0
    ∧ countBindingCreates
      ((EnsureSnapshotEnvironmentBindingExists (honestClient wCluster) wRelease).effects
        ++ (EnsureSnapshotEnvironmentBindingExists
            (honestClient (applyEffects wCluster
              (EnsureSnapshotEnvironmentBindingExists (honestClient wCluster) wRelease).effects))
            (EnsureSnapshotEnvironmentBindingExists (honestClient wCluster) wRelease).release).effects)
      ≤ 1 :=
  ⟨C1_idempotent_creation.1 wCluster wRelease ⟨wPR, by decide, by decide⟩,
   C1_idempotent_creation.2.1 wCluster wRelease wRpa rfl
     ⟨wBinding, by decide, by decide⟩,
   C1_idempotent_creation.2.2.2 wCluster wRelease (fun rpa snap h1 h2 => by
     have hr : (Except.ok wRpa : Except KError ReleasePlanAdmission) =
         Except.ok rpa :=
       (show getActiveReleasePlanAdmission (honestClient wCluster) wRelease =
         Except.ok wRpa from rfl).symm.trans h1
     have hs : (Except.ok wSnap : Except KError Snapshot) = Except.ok snap :=
       (show (honestClient wCluster).getSnapshot wRelease.ns
         wRelease.spec.snapshot = Except.ok wSnap from rfl).symm.trans h2
     cases hr
     cases hs
     rfl)⟩





/-- C2 counterexample: two admissions in the target namespace both match the
plan's application, yet — because the first matching candidate carries the
auto-release opt-out — resolution fails with the auto-release error, not the
multiple-admissions error, and the gating operation marks the Release
invalid with the target-disabled reason, not the validation reason. -/
theorem C2_counterexample :
    getActiveReleasePlanAdmission (honestClient c2Cluster) wRelease =
      .error (.custom (autoReleaseFalseMsg "rpaA"))
    ∧ autoReleaseFalseMsg "rpaA" ≠ multipleAdmissionsMsg "prod" "app"
    ∧ strContains (autoReleaseFalseMsg "rpaA") multipleMarker = false
    ∧ (EnsureReleasePlanAdmissionEnabled (honestClient c2Cluster) wRelease).release.state
        = ReleaseState.invalid ReleaseReason.targetDisabledError
            (autoReleaseFalseMsg "rpaA") :=
  ⟨rfl, by decide, by decide, rfl⟩

/-- C2 (amended): with two or more application-matching admissions in the
plan's target namespace, resolution always fails — with the
multiple-admissions error naming target and application whenever the first
matching candidate is not labelled auto-release=false (never
first-match-wins), and with the auto-release error naming that candidate
otherwise — and the gating operation marks the Release invalid
(validation reason resp. target-disabled reason) and stops the chain. -/
theorem C2_admission_uniqueness_amended :
    ∀ (cl : Cluster) (r : Release) (plan : ReleasePlan)
      (a : ReleasePlanAdmission) (rest : List ReleasePlanAdmission),
      (honestClient cl).getReleasePlan r.ns r.spec.releasePlan = .ok plan →
      candidates plan (admissionsFor cl plan) = a :: rest →
      rest ≠ [] →
      (a.labels.lookup autoReleaseLabel ≠ some "false" →
        getActiveReleasePlanAdmission (honestClient cl) r =
          .error (.custom (multipleAdmissionsMsg plan.target plan.application))
        ∧ EnsureReleasePlanAdmissionEnabled (honestClient cl) r =
          ⟨.stopProcessing,
            markInvalid r .validationError
              (multipleAdmissionsMsg plan.target plan.application),
            [.statusPatch (markInvalid r .validationError
              (multipleAdmissionsMsg plan.target plan.application))]⟩)
      ∧ (a.labels.lookup autoReleaseLabel = some "false" →
        strContains (autoReleaseFalseMsg a.name) multipleMarker = false →
        getActiveReleasePlanAdmission (honestClient cl) r =
          .error (.custom (autoReleaseFalseMsg a.name))
        ∧ EnsureReleasePlanAdmissionEnabled (honestClient cl) r =
          ⟨.stopProcessing,
            markInvalid r .targetDisabledError (autoReleaseFalseMsg a.name),
            [.statusPatch (markInvalid r .targetDisabledError
              (autoReleaseFalseMsg a.name))]⟩) := by
  intro cl r plan a rest hp hc hrest
  have hlift := getActive_honest cl r plan hp
  obtain ⟨case1, case2, case3⟩ := findActiveAdmission_none_cases plan
    (admissionsFor cl plan) a rest hc
  constructor
  · intro hlbl
    have hget : getActiveReleasePlanAdmission (honestClient cl) r =
        .error (.custom (multipleAdmissionsMsg plan.target plan.application)) :=
      hlift.trans (case3 hlbl hrest)
    refine ⟨hget, ?_⟩
    simp only [EnsureReleasePlanAdmissionEnabled, hget]
    simp [KError.errString, multipleMsg_contains, markInvalidAndPatch,
      honestClient_statusPatchRes]
  · intro hlbl hnm
    have hget : getActiveReleasePlanAdmission (honestClient cl) r =
        .error (.custom (autoReleaseFalseMsg a.name)) :=
      hlift.trans (case1 hlbl)
    refine ⟨hget, ?_⟩
    simp only [EnsureReleasePlanAdmissionEnabled, hget]
    simp [KError.errString, hnm, autoMsg_contains, markInvalidAndPatch,
      honestClient_statusPatchRes]

/-- Witness for C2 (amended): with the clean candidate listed first, the
multiple-admissions error is produced and the Release is marked invalid with
the validation reason. -/
theorem C2_admission_uniqueness_amended_witness :
    getActiveReleasePlanAdmission (honestClient c2ClusterB) wRelease =
      .error (.custom (multipleAdmissionsMsg "prod" "app"))
    ∧ EnsureReleasePlanAdmissionEnabled (honestClient c2ClusterB) wRelease =
      ⟨.stopProcessing,
        markInvalid wRelease .validationError (multipleAdmissionsMsg "prod" "app"),
        [.statusPatch (markInvalid wRelease .validationError
          (multipleAdmissionsMsg "prod" "app"))]⟩ :=
  (C2_admission_uniqueness_amended c2ClusterB wRelease wPlan c2RpaB [c2RpaA]
    rfl (by decide) (by decide)).1 (by decide)


/-- C3: Opt-out respected.  (1) An admission carrying the auto-release label
with value "false" is never the successful result of resolution.  (2) As the
sole application-matching candidate it produces the auto-release error
naming it, while (3) absence of the label or any other value makes the sole
candidate the successful result (treated as opted-in). -/
theorem C3_opt_out_respected :
    (∀ (cl : Cluster) (r : Release) (rpa : ReleasePlanAdmission),
      getActiveReleasePlanAdmission (honestClient cl) r = .ok rpa →
      rpa.labels.lookup autoReleaseLabel ≠ some "false")
    ∧ (∀ (cl : Cluster) (r : Release) (plan : ReleasePlan)
        (a : ReleasePlanAdmission),
      (honestClient cl).getReleasePlan r.ns r.spec.releasePlan = .ok plan →
      candidates plan (admissionsFor cl plan) = [a] →
      (a.labels.lookup autoReleaseLabel = some "false" →
        getActiveReleasePlanAdmission (honestClient cl) r =
          .error (.custom (autoReleaseFalseMsg a.name)))
      ∧ (a.labels.lookup autoReleaseLabel ≠ some "false" →
        getActiveReleasePlanAdmission (honestClient cl) r = .ok a)) := by
  constructor
  · intro cl r rpa h
    cases hp : (honestClient cl).getReleasePlan r.ns r.spec.releasePlan with
    | error e =>
      rw [show getActiveReleasePlanAdmission (honestClient cl) r = .error e by
        simp only [getActiveReleasePlanAdmission, getReleasePlan, hp]] at h
      exact absurd h (by simp)
    | ok plan =>
      rw [getActive_honest cl r plan hp] at h
      exact findActiveAdmission_ok_not_opted_out plan _ none rpa
        (fun x hx => nomatch hx) h
  · intro cl r plan a hp hc
    have hlift := getActive_honest cl r plan hp
    obtain ⟨case1, case2, _⟩ := findActiveAdmission_none_cases plan
      (admissionsFor cl plan) a [] hc
    exact ⟨fun hl => hlift.trans (case1 hl),
      fun hl => hlift.trans (case2 hl rfl)⟩

/-- Witness for C3: the cluster's sole admission resolves, so it cannot be
opted out; a sole opted-out candidate yields the auto-release error; a sole
clean candidate is returned. -/
theorem C3_opt_out_respected_witness :
    wRpa.labels.lookup autoReleaseLabel ≠ some "false"
    ∧ getActiveReleasePlanAdmission (honestClient c3Cluster) wRelease =
        .error (.custom (autoReleaseFalseMsg "rpaA"))
    ∧ getActiveReleasePlanAdmission (honestClient wCluster) wRelease = .ok wRpa :=
  ⟨C3_opt_out_respected.1 wCluster wRelease wRpa rfl,
   (C3_opt_out_respected.2 c3Cluster wRelease wPlan c2RpaA rfl (by decide)).1
     (by decide),
   (C3_opt_out_respected.2 wCluster wRelease wPlan wRpa rfl (by decide)).2
     (by decide)⟩


/-- C5: Zero matching candidates fail with the "no ReleasePlanAdmission
found" error naming target and application (1); the gating operation
continues, mutating nothing, whenever the resolution error carries neither
marker substring — as the no-admission error does for separator-free names
(2); and it deviates from that pure continue only when the error carries one
of the two marker substrings (3). -/
theorem C5_no_admission_continues :
    (∀ (cl : Cluster) (r : Release) (plan : ReleasePlan),
      (honestClient cl).getReleasePlan r.ns r.spec.releasePlan = .ok plan →
      candidates plan (admissionsFor cl plan) = [] →
      getActiveReleasePlanAdmission (honestClient cl) r =
        .error (.custom (noAdmissionMsg plan.target plan.application)))
    ∧ (∀ (c : Client) (r : Release) (e : KError),
      getActiveReleasePlanAdmission c r = .error e →
      strContains e.errString multipleMarker = false →
      strContains e.errString autoReleaseMarker = false →
      EnsureReleasePlanAdmissionEnabled c r = ⟨.continueProcessing, r, []⟩)
    ∧ (∀ (c : Client) (r : Release),
      EnsureReleasePlanAdmissionEnabled c r ≠ ⟨.continueProcessing, r, []⟩ →
      ∃ e, getActiveReleasePlanAdmission c r = .error e ∧
        (strContains e.errString multipleMarker = true ∨
         strContains e.errString autoReleaseMarker = true)) := by
  refine ⟨?_, ?_, ?_⟩
  · intro cl r plan hp hc
    exact (getActive_honest cl r plan hp).trans
      (findActiveAdmission_of_no_candidate_none plan _ hc)
  · intro c r e hget hm ha
    simp only [EnsureReleasePlanAdmissionEnabled, hget]
    simp [hm, ha]
  · intro c r hne
    cases hget : getActiveReleasePlanAdmission c r with
    | ok rpa =>
      exact absurd (by simp only [EnsureReleasePlanAdmissionEnabled, hget]) hne
    | error e =>
      by_cases hm : strContains e.errString multipleMarker = true
      · exact ⟨e, rfl, Or.inl hm⟩
      · by_cases ha : strContains e.errString autoReleaseMarker = true
        · exact ⟨e, rfl, Or.inr ha⟩
        · refine absurd ?_ hne
          simp only [EnsureReleasePlanAdmissionEnabled, hget]
          simp [Bool.of_not_eq_true hm, Bool.of_not_eq_true ha]

/-- Witness for C5: an empty admission list yields the no-admission error,
whose text carries neither marker, and the gating operation is a pure
continue on it. -/
theorem C5_no_admission_continues_witness :
    getActiveReleasePlanAdmission (honestClient c5Cluster) wRelease =
      .error (.custom (noAdmissionMsg "prod" "app"))
    ∧ EnsureReleasePlanAdmissionEnabled (honestClient c5Cluster) wRelease =
      ⟨.continueProcessing, wRelease, []⟩ :=
  ⟨C5_no_admission_continues.1 c5Cluster wRelease wPlan rfl (by decide),
   C5_no_admission_continues.2.1 (honestClient c5Cluster) wRelease
     (.custom (noAdmissionMsg "prod" "app"))
     (C5_no_admission_continues.1 c5Cluster wRelease wPlan rfl (by decide))
     (by decide) (by decide)⟩


/-- C4 counterexample: with no existing execution, a plain transport error
from the admission-resolution store call does not requeue-with-error without
touching status — it marks the Release invalid and attempts (and here
performs) a status patch, stopping the chain. -/
theorem C4_counterexample :
    c4Client.getReleasePlan wRelease.ns wRelease.spec.releasePlan =
      .error (.transient "connection refused")
    ∧ (EnsureReleasePipelineRunExists c4Client wRelease).result = .stopProcessing
    ∧ (EnsureReleasePipelineRunExists c4Client wRelease).release =
        markInvalid wRelease .releasePlanValidationError "connection refused"
    ∧ (EnsureReleasePipelineRunExists c4Client wRelease).effects =
        [.statusPatch (markInvalid wRelease .releasePlanValidationError
          "connection refused")]
    ∧ ∀ e, (EnsureReleasePipelineRunExists c4Client wRelease).result ≠
        .requeueWithError e :=
  ⟨rfl, rfl, rfl, rfl, fun e h => by
    rw [show (EnsureReleasePipelineRunExists c4Client wRelease).result =
      .stopProcessing from rfl] at h
    exact absurd h (by simp)⟩

/-- C4 (amended): when no existing execution is found, ANY failure of the
four resolution steps — validation or transient alike — marks the Release
invalid with the step's reason and attempts the status patch (stopping the
chain when the patch succeeds); only a non-not-found failure of the initial
execution lookup, or a creation failure, is requeued with the error and with
no status mutation. -/
theorem C4_resolution_failures_amended :
    ∀ (c : Client) (r : Release) (e : KError),
      (c.listPipelineRuns r.name r.ns = .ok [] →
        getActiveReleasePlanAdmission c r = .error e →
        EnsureReleasePipelineRunExists c r =
          markInvalidAndPatch c r .releasePlanValidationError e.errString)
      ∧ (∀ rpa : ReleasePlanAdmission,
        c.listPipelineRuns r.name r.ns = .ok [] →
        getActiveReleasePlanAdmission c r = .ok rpa →
        c.getReleaseStrategy rpa.ns rpa.releaseStrategy = .error e →
        EnsureReleasePipelineRunExists c r =
          markInvalidAndPatch c r .validationError e.errString)
      ∧ (∀ (rpa : ReleasePlanAdmission) (strategy : ReleaseStrategy),
        c.listPipelineRuns r.name r.ns = .ok [] →
        getActiveReleasePlanAdmission c r = .ok rpa →
        c.getReleaseStrategy rpa.ns rpa.releaseStrategy = .ok strategy →
        c.getEnterpriseContractPolicy strategy.ns strategy.policy = .error e →
        EnsureReleasePipelineRunExists c r =
          markInvalidAndPatch c r .validationError e.errString)
      ∧ (∀ (rpa : ReleasePlanAdmission) (strategy : ReleaseStrategy)
          (policy : EnterpriseContractPolicy),
        c.listPipelineRuns r.name r.ns = .ok [] →
        getActiveReleasePlanAdmission c r = .ok rpa →
        c.getReleaseStrategy rpa.ns rpa.releaseStrategy = .ok strategy →
        c.getEnterpriseContractPolicy strategy.ns strategy.policy = .ok policy →
        c.getSnapshot r.ns r.spec.snapshot = .error e →
        EnsureReleasePipelineRunExists c r =
          markInvalidAndPatch c r .validationError e.errString)
      ∧ (∀ (rpa : ReleasePlanAdmission) (strategy : ReleaseStrategy)
          (policy : EnterpriseContractPolicy) (snapshot : Snapshot),
        c.listPipelineRuns r.name r.ns = .ok [] →
        getActiveReleasePlanAdmission c r = .ok rpa →
        c.getReleaseStrategy rpa.ns rpa.releaseStrategy = .ok strategy →
        c.getEnterpriseContractPolicy strategy.ns strategy.policy = .ok policy →
        c.getSnapshot r.ns r.spec.snapshot = .ok snapshot →
        c.createPipelineRunRes (newReleasePipelineRun r strategy) = some e →
        EnsureReleasePipelineRunExists c r = ⟨.requeueWithError e, r, []⟩)
      ∧ (c.listPipelineRuns r.name r.ns = .error e → ¬e.isNotFound = true →
        EnsureReleasePipelineRunExists c r = ⟨.requeueWithError e, r, []⟩)
      ∧ (∀ (reason : ReleaseReason) (msg : String),
        c.statusPatchRes (markInvalid r reason msg) = none →
        markInvalidAndPatch c r reason msg =
          ⟨.stopProcessing, markInvalid r reason msg,
            [.statusPatch (markInvalid r reason msg)]⟩) := by
  intro c r e
  have hlookOf : c.listPipelineRuns r.name r.ns = .ok [] →
      getReleasePipelineRun c r = .ok none := by
    intro hlist
    simp only [getReleasePipelineRun, hlist]
    rfl
  refine ⟨?_, ?_, ?_, ?_, ?_, ?_, ?_⟩
  · intro hlist hget
    simp only [EnsureReleasePipelineRunExists, hlookOf hlist,
      ensurePipelineRunRest, hget]
  · intro rpa hlist hget hstrat
    simp only [EnsureReleasePipelineRunExists, hlookOf hlist,
      ensurePipelineRunRest, hget, hstrat]
  · intro rpa strategy hlist hget hstrat hpol
    simp only [EnsureReleasePipelineRunExists, hlookOf hlist,
      ensurePipelineRunRest, hget, hstrat, hpol]
  · intro rpa strategy policy hlist hget hstrat hpol hsnap
    simp only [EnsureReleasePipelineRunExists, hlookOf hlist,
      ensurePipelineRunRest, hget, hstrat, hpol, hsnap]
  · intro rpa strategy policy snapshot hlist hget hstrat hpol hsnap hcreate
    simp only [EnsureReleasePipelineRunExists, hlookOf hlist,
      ensurePipelineRunRest, hget, hstrat, hpol, hsnap,
      createReleasePipelineRun, hcreate]
  · intro hlist hn
    have hlook : getReleasePipelineRun c r = .error e := by
      simp only [getReleasePipelineRun, hlist]
    simp only [EnsureReleasePipelineRunExists, hlook]
    simp [hn]
  · intro reason msg hp
    simp only [markInvalidAndPatch, hp]

/-- Witness for C4 (amended): the transport-failing client of the
counterexample discharges the admission-step conjunct and the
patch-succeeds conjunct, and a client whose creation call fails while the
whole resolution chain succeeds discharges the creation-failure conjunct:
the pass is requeued with the error and no status mutation. -/
theorem C4_resolution_failures_amended_witness :
    EnsureReleasePipelineRunExists c4Client wRelease =
      markInvalidAndPatch c4Client wRelease .releasePlanValidationError
        (KError.transient "connection refused").errString
    ∧ markInvalidAndPatch c4Client wRelease .releasePlanValidationError
        "connection refused" =
      ⟨.stopProcessing,
        markInvalid wRelease .releasePlanValidationError "connection refused",
        [.statusPatch (markInvalid wRelease .releasePlanValidationError
          "connection refused")]⟩
    ∧ EnsureReleasePipelineRunExists c4bClient wRelease =
      ⟨.requeueWithError (.transient "create failed"), wRelease, []⟩ :=
  ⟨(C4_resolution_failures_amended c4Client wRelease
      (.transient "connection refused")).1 rfl rfl,
   (C4_resolution_failures_amended c4Client wRelease
      (.transient "connection refused")).2.2.2.2.2.2 .releasePlanValidationError
      "connection refused" rfl,
   (C4_resolution_failures_amended c4bClient wRelease
      (.transient "create failed")).2.2.2.2.1 wRpa wStrategy wPolicy wSnap
      rfl rfl rfl rfl rfl rfl⟩

/-- C6: Finalizer ordering.  For a deletion-marked Release: without the
finalizer token no cleanup runs and the pass requeues (2); with the token,
the labelled execution is deleted before the finalizer-removing patch (3),
a patch failure requeues with the error with no finalizer-removing patch
recorded in the store (so the finalizer stays) (4), a non-not-found deletion
failure requeues with the error and leaves everything untouched (5), a
not-found deletion result is not an error and the pass proceeds to remove
the finalizer (6); all deletion-marked outcomes short of failure requeue so
no later operation runs.  Without the deletion marker the operation is a
pure continue (1). -/
theorem C6_finalizer_ordering :
    ∀ (c : Client) (r : Release) (t : Nat) (pr : PipelineRun)
      (prs : List PipelineRun) (e : KError),
      (r.deletionTimestamp = none →
        EnsureFinalizersAreCalled c r = ⟨.continueProcessing, r, []⟩)
      ∧ (r.deletionTimestamp = some t → finalizerName ∉ r.finalizers →
        EnsureFinalizersAreCalled c r = ⟨.requeue, r, []⟩)
      ∧ (r.deletionTimestamp = some t → finalizerName ∈ r.finalizers →
        c.listPipelineRuns r.name r.ns = .ok (pr :: prs) →
        c.deletePipelineRunRes pr = none →
        c.patchReleaseRes
          { r with finalizers := r.finalizers.filter (· ≠ finalizerName) } = none →
        EnsureFinalizersAreCalled c r =
          ⟨.requeue, { r with finalizers := r.finalizers.filter (· ≠ finalizerName) },
            [.deletePipelineRun pr.ns pr.name,
             .patchRelease
               { r with finalizers := r.finalizers.filter (· ≠ finalizerName) }]⟩)
      ∧ (r.deletionTimestamp = some t → finalizerName ∈ r.finalizers →
        c.listPipelineRuns r.name r.ns = .ok (pr :: prs) →
        c.deletePipelineRunRes pr = none →
        c.patchReleaseRes
          { r with finalizers := r.finalizers.filter (· ≠ finalizerName) } = some e →
        EnsureFinalizersAreCalled c r =
          ⟨.requeueWithError e,
            { r with finalizers := r.finalizers.filter (· ≠ finalizerName) },
            [.deletePipelineRun pr.ns pr.name]⟩)
      ∧ (r.deletionTimestamp = some t → finalizerName ∈ r.finalizers →
        c.listPipelineRuns r.name r.ns = .ok (pr :: prs) →
        c.deletePipelineRunRes pr = some e → ¬e.isNotFound = true →
        EnsureFinalizersAreCalled c r = ⟨.requeueWithError e, r, []⟩)
      ∧ (r.deletionTimestamp = some t → finalizerName ∈ r.finalizers →
        c.listPipelineRuns r.name r.ns = .ok (pr :: prs) →
        c.deletePipelineRunRes pr = some e → e.isNotFound = true →
        c.patchReleaseRes
          { r with finalizers := r.finalizers.filter (· ≠ finalizerName) } = none →
        EnsureFinalizersAreCalled c r =
          ⟨.requeue, { r with finalizers := r.finalizers.filter (· ≠ finalizerName) },
            [.patchRelease
              { r with finalizers := r.finalizers.filter (· ≠ finalizerName) }]⟩) := by
  intro c r t pr prs e
  refine ⟨?_, ?_, ?_, ?_, ?_, ?_⟩
  · intro hd
    simp only [EnsureFinalizersAreCalled, hd]
  · intro hd hfin
    simp only [EnsureFinalizersAreCalled, hd]
    rw [if_neg hfin]
  · intro hd hfin hlist hdel hpatch
    have hfinz : finalizeRelease c r = .ok [.deletePipelineRun pr.ns pr.name] := by
      simp only [finalizeRelease, getReleasePipelineRun, hlist]
      simp only [List.head?, hdel]
    rw [hd] at hpatch
    simp only [EnsureFinalizersAreCalled, hd]
    rw [if_pos hfin]
    simp only [hfinz, hpatch]
    rfl
  · intro hd hfin hlist hdel hpatch
    have hfinz : finalizeRelease c r = .ok [.deletePipelineRun pr.ns pr.name] := by
      simp only [finalizeRelease, getReleasePipelineRun, hlist]
      simp only [List.head?, hdel]
    rw [hd] at hpatch
    simp only [EnsureFinalizersAreCalled, hd]
    rw [if_pos hfin]
    simp only [hfinz, hpatch]
  · intro hd hfin hlist hdel hn
    have hfinz : finalizeRelease c r = .error e := by
      simp only [finalizeRelease, getReleasePipelineRun, hlist]
      simp only [List.head?, hdel]
      simp [hn]
    simp only [EnsureFinalizersAreCalled, hd]
    rw [if_pos hfin]
    simp only [hfinz]
  · intro hd hfin hlist hdel hnf hpatch
    have hfinz : finalizeRelease c r = .ok [] := by
      simp only [finalizeRelease, getReleasePipelineRun, hlist]
      simp only [List.head?, hdel]
      simp [hnf]
    rw [hd] at hpatch
    simp only [EnsureFinalizersAreCalled, hd]
    rw [if_pos hfin]
    simp only [hfinz, hpatch]
    rfl


/-- Witness for C6: a deletion-marked Release with the finalizer and a live
labelled execution in the store has the execution deleted before the
finalizer-removing patch, and the pass requeues. -/
theorem C6_finalizer_ordering_witness :
    EnsureFinalizersAreCalled (honestClient wCluster) c6Release =
      ⟨.requeue, { c6Release with finalizers := [] },
        [.deletePipelineRun "prod" "release-pipelinerun",
         .patchRelease { c6Release with finalizers := [] }]⟩ := by
  have h := (C6_finalizer_ordering (honestClient wCluster) c6Release 1 wPR []
    (.notFound "not found")).2.2.1 rfl (by decide) rfl rfl rfl
  exact h.trans (by decide)


/-- C7 counterexample: a Release that IS marked for deletion and lacks the
finalizer token is still mutated by `EnsureFinalizerIsAdded` — the token is
appended and a patch is issued — contradicting the claim that a
deletion-marked Release is left untouched.  (The operation never consults
the deletion timestamp.) -/
theorem C7_counterexample :
    c7Release.deletionTimestamp = some 5
    ∧ finalizerName ∉ c7Release.finalizers
    ∧ (EnsureFinalizerIsAdded (honestClient wCluster) c7Release).release.finalizers
        = [finalizerName]
    ∧ (EnsureFinalizerIsAdded (honestClient wCluster) c7Release).effects =
        [.patchRelease { c7Release with finalizers := [finalizerName] }] :=
  ⟨rfl, by decide, by decide, by decide⟩

/-- C7 (amended): `EnsureFinalizerIsAdded` appends the finalizer token and
patches exactly when the token is absent, regardless of the deletion marker
(deletion-marked Releases never reach it in the chain because
`EnsureFinalizersAreCalled` requeues first); with the token present it
mutates nothing and continues; a patch failure requeues with the error and
records no store mutation. -/
theorem C7_finalizer_added_amended :
    ∀ (c : Client) (r : Release) (e : KError),
      (finalizerName ∈ r.finalizers →
        EnsureFinalizerIsAdded c r = ⟨.continueProcessing, r, []⟩)
      ∧ (finalizerName ∉ r.finalizers →
        c.patchReleaseRes { r with finalizers := r.finalizers ++ [finalizerName] }
          = none →
        EnsureFinalizerIsAdded c r =
          ⟨.continueProcessing,
            { r with finalizers := r.finalizers ++ [finalizerName] },
            [.patchRelease
              { r with finalizers := r.finalizers ++ [finalizerName] }]⟩)
      ∧ (finalizerName ∉ r.finalizers →
        c.patchReleaseRes { r with finalizers := r.finalizers ++ [finalizerName] }
          = some e →
        EnsureFinalizerIsAdded c r =
          ⟨.requeueWithError e,
            { r with finalizers := r.finalizers ++ [finalizerName] }, []⟩) := by
  intro c r e
  refine ⟨?_, ?_, ?_⟩
  · intro hfin
    simp only [EnsureFinalizerIsAdded]
    rw [if_pos hfin]
  · intro hfin hpatch
    simp only [EnsureFinalizerIsAdded]
    rw [if_neg hfin]
    simp only [hpatch]
  · intro hfin hpatch
    simp only [EnsureFinalizerIsAdded]
    rw [if_neg hfin]
    simp only [hpatch]

/-- Witness for C7 (amended): the deletion-marked, token-free Release gets
the token appended and patched. -/
theorem C7_finalizer_added_amended_witness :
    EnsureFinalizerIsAdded (honestClient wCluster) c7Release =
      ⟨.continueProcessing, { c7Release with finalizers := [finalizerName] },
        [.patchRelease { c7Release with finalizers := [finalizerName] }]⟩ :=
  (C7_finalizer_added_amended (honestClient wCluster) c7Release
    (.notFound "not found")).2.1 (by decide) rfl


/-- C8: Malformed persisted binding reference.  When the tracking operation
runs (Release succeeded, a binding reference recorded, deployment not yet
final) and the stored namespaced-name does not split into exactly two
segments, the pass fails with the descriptive parse error — a `custom`
error, never the distinguished not-found — and the operation abandons the
pass through the requeue-with-error path with no status mutation. -/
theorem C8_malformed_binding_ref :
    ∀ (c : Client) (r : Release),
      r.hasSucceeded = true →
      r.status.snapshotEnvironmentBinding ≠ "" →
      r.hasBeenDeployed = false →
      (goSplit r.status.snapshotEnvironmentBinding sepChar).length ≠ 2 →
      EnsureSnapshotEnvironmentBindingIsTracked c r =
        ⟨.requeueWithError
          (.custom (invalidBindingRefMsg r.status.snapshotEnvironmentBinding)),
          r, []⟩
      ∧ (KError.custom
          (invalidBindingRefMsg r.status.snapshotEnvironmentBinding)).isNotFound
        = false := by
  intro c r h1 h2 h3 h4
  have hparse : getSnapshotEnvironmentBindingFromReleaseStatus c r =
      .error (.custom (invalidBindingRefMsg r.status.snapshotEnvironmentBinding)) := by
    unfold getSnapshotEnvironmentBindingFromReleaseStatus
    cases hs : goSplit r.status.snapshotEnvironmentBinding sepChar with
    | nil => rfl
    | cons a t =>
      cases t with
      | nil => rfl
      | cons b t2 =>
        cases t2 with
        | nil =>
          exact absurd (by rw [hs]; rfl :
            (goSplit r.status.snapshotEnvironmentBinding sepChar).length = 2) h4
        | cons c3 t3 => rfl
  constructor
  · simp only [EnsureSnapshotEnvironmentBindingIsTracked]
    rw [if_neg (by simp [h1, h2, h3])]
    simp only [hparse]
  · rfl

/-- Witness for C8: a recorded reference without any separator fails the
pass with the parse error. -/
theorem C8_malformed_binding_ref_witness :
    EnsureSnapshotEnvironmentBindingIsTracked (honestClient wCluster) c8Release =
      ⟨.requeueWithError (.custom (invalidBindingRefMsg "no-separator")),
        c8Release, []⟩
    ∧ (KError.custom (invalidBindingRefMsg "no-separator")).isNotFound = false :=
  C8_malformed_binding_ref (honestClient wCluster) c8Release rfl (by decide)
    rfl (by decide)

/-- C9: Status round-trip.  (1) A binding reference stored as
`namespace</>name` with separator-free components parses back to a fetch at
exactly that (namespace, name) pair.  (2) Any stored string that does not
split into two segments yields the descriptive parse error, which is not a
not-found.  (3) Splitting into two segments characterises exactly the
strings of the two-segment form. -/
theorem C9_status_round_trip :
    (∀ (c : Client) (r : Release) (nsp nm : String),
      sepChar ∉ nsp.data → sepChar ∉ nm.data →
      r.status.snapshotEnvironmentBinding = nsp ++ sepStr ++ nm →
      getSnapshotEnvironmentBindingFromReleaseStatus c r = c.getBinding nsp nm)
    ∧ (∀ (c : Client) (r : Release),
      (goSplit r.status.snapshotEnvironmentBinding sepChar).length ≠ 2 →
      getSnapshotEnvironmentBindingFromReleaseStatus c r =
        .error (.custom (invalidBindingRefMsg r.status.snapshotEnvironmentBinding))
      ∧ (KError.custom
          (invalidBindingRefMsg r.status.snapshotEnvironmentBinding)).isNotFound
        = false)
    ∧ (∀ s : String, (goSplit s sepChar).length = 2 ↔
        ∃ nsp nm : String, sepChar ∉ nsp.data ∧ sepChar ∉ nm.data ∧
          s = nsp ++ sepStr ++ nm) := by
  refine ⟨?_, ?_, goSplit_two_iff⟩
  · intro c r nsp nm h1 h2 hst
    unfold getSnapshotEnvironmentBindingFromReleaseStatus
    rw [hst, goSplit_write nsp nm h1 h2]
  · intro c r h4
    constructor
    · unfold getSnapshotEnvironmentBindingFromReleaseStatus
      cases hs : goSplit r.status.snapshotEnvironmentBinding sepChar with
      | nil => rfl
      | cons a t =>
        cases t with
        | nil => rfl
        | cons b t2 =>
          cases t2 with
          | nil =>
            exact absurd (by rw [hs]; rfl :
              (goSplit r.status.snapshotEnvironmentBinding sepChar).length = 2) h4
          | cons c3 t3 => rfl
    · rfl


/-- Witness for C9: the reference written for the witness binding parses back
to a fetch at ("prod", "env-binding"), and a separator-free string is a
parse error. -/
theorem C9_status_round_trip_witness :
    getSnapshotEnvironmentBindingFromReleaseStatus (honestClient wCluster)
      c9Release = (honestClient wCluster).getBinding "prod" "env-binding"
    ∧ getSnapshotEnvironmentBindingFromReleaseStatus (honestClient wCluster)
      c8Release = .error (.custom (invalidBindingRefMsg "no-separator"))
    ∧ (goSplit "prod/env-binding" sepChar).length = 2 :=
  ⟨C9_status_round_trip.1 (honestClient wCluster) c9Release "prod" "env-binding"
     (by decide) (by decide) rfl,
   (C9_status_round_trip.2.1 (honestClient wCluster) c8Release (by decide)).1,
   (C9_status_round_trip.2.2 "prod/env-binding").mpr
     ⟨"prod", "env-binding", by decide, by decide, rfl⟩⟩

/-- C10: For a Release that has started and is not yet done, a successful
execution lookup that matches no object leaves the tracking operation as a
pure continue: the in-memory Release is returned unchanged — in particular
its condition state and completion time — and no store mutation happens. -/
theorem C10_vanished_execution_no_mutation :
    ∀ (c : Client) (r : Release),
      r.hasStarted = true → r.isDone = false →
      c.listPipelineRuns r.name r.ns = .ok [] →
      EnsureReleasePipelineStatusIsTracked c r = ⟨.continueProcessing, r, []⟩
      ∧ (EnsureReleasePipelineStatusIsTracked c r).release.state = r.state
      ∧ (EnsureReleasePipelineStatusIsTracked c r).release.status.completionTime
          = r.status.completionTime := by
  intro c r h1 h2 hlist
  have hlook : getReleasePipelineRun c r = .ok none := by
    simp only [getReleasePipelineRun, hlist]
    rfl
  have hmain : EnsureReleasePipelineStatusIsTracked c r =
      ⟨.continueProcessing, r, []⟩ := by
    simp only [EnsureReleasePipelineStatusIsTracked]
    rw [if_neg (by simp [h1, h2])]
    simp only [hlook]
  exact ⟨hmain, by rw [hmain], by rw [hmain]⟩


/-- Witness for C10: a running Release whose execution has vanished from the
store is left exactly as it was. -/
theorem C10_vanished_execution_no_mutation_witness :
    EnsureReleasePipelineStatusIsTracked c4Client c10Release =
      ⟨.continueProcessing, c10Release, []⟩ :=
  (C10_vanished_execution_no_mutation c4Client c10Release rfl rfl rfl).1

end ReleaseSvc
